import Mathlib

/-!
Verification of the GoBabyGo car controller motion core.

This file is a shallow embedding of the Directional Motion Controller of the
GoBabyGo car controller (the "Simple 4 Direction" build): the target speed
calculator (`setLeftRightMotorSpeeds`), the rate limiter and pulse-width
mapper (`drive`), the direction-change interlock and its blocking resync
loop (`resetMotorSpeeds`), the joystick input classifier
(`getJoystickInputs`), and the configuration (EEPROM percentage) handling
in `setup` and in the touchscreen save path of `loop`.

The target is an 8-bit AVR Arduino, where `int` is 16 bits wide.  Machine
integers are modelled as `ℤ` together with explicit reductions modulo
`2 ^ 16` (`u16`, `toInt16`) at the places where a value is stored into a
`uint16_t` / `int16_t` or where C's usual arithmetic conversions force an
unsigned 16-bit comparison.  C integer division truncates toward zero,
which is `Int.tdiv`.
-/

namespace GoBabyGo

/-- Reduction of a value stored into a `uint16_t` (or compared after the
usual arithmetic conversions to 16-bit `unsigned int` on AVR). -/
def u16 (z : ℤ) : ℤ := z % 65536

/-- Conversion of a 16-bit bit pattern to the value of an `int16_t`
(two's complement). -/
def toInt16 (z : ℤ) : ℤ := if z % 65536 ≥ 32768 then z % 65536 - 65536 else z % 65536

/-- The Arduino `map` function:
`(x - in_min) * (out_max - out_min) / (in_max - in_min) + out_min`
computed in `long` arithmetic, with C division truncating toward zero. -/
def amap (x inLo inHi outLo outHi : ℤ) : ℤ :=
  Int.tdiv ((x - inLo) * (outHi - outLo)) (inHi - inLo) + outLo

/-- Default pulse width for full reverse (`REVERSE_PULSE`), in µs. -/
def REVERSE_PULSE : ℤ := 1000

/-- Default pulse width for full forward (`FORWARD_PULSE`), in µs. -/
def FORWARD_PULSE : ℤ := 2000

/-- Internal speed value that represents motor neutral (`NEUTRAL_SPEED`). -/
def NEUTRAL_SPEED : ℤ := 500

/-- Smallest configurable speed limit (`MIN_SPEED_LIMIT`). -/
def MIN_SPEED_LIMIT : ℤ := 72

/-- Largest configurable speed limit (`MAX_SPEED_LIMIT`). -/
def MAX_SPEED_LIMIT : ℤ := 512

/-- Constant `MIN_FORWARD_THRESH`. -/
def MIN_FORWARD_THRESH : ℤ := 600

/-- Constant `MAX_FORWARD_THRESH`. -/
def MAX_FORWARD_THRESH : ℤ := 1000

/-- Constant `MIN_REVERSE_THRESH`. -/
def MIN_REVERSE_THRESH : ℤ := 0

/-- Constant `MAX_REVERSE_THRESH`. -/
def MAX_REVERSE_THRESH : ℤ := 400

/-- Constant `MIN_LEFT_THRESH`. -/
def MIN_LEFT_THRESH : ℤ := 0

/-- Constant `MAX_LEFT_THRESH`. -/
def MAX_LEFT_THRESH : ℤ := 400

/-- Constant `MIN_RIGHT_THRESH`. -/
def MIN_RIGHT_THRESH : ℤ := 600

/-- Constant `MAX_RIGHT_THRESH`. -/
def MAX_RIGHT_THRESH : ℤ := 1000

/-- Constant `MIN_INCREASE_RAMPING`. -/
def MIN_INCREASE_RAMPING : ℤ := 1

/-- Constant `MAX_INCREASE_RAMPING`. -/
def MAX_INCREASE_RAMPING : ℤ := 30

/-- Constant `MIN_DECREASE_RAMPING`. -/
def MIN_DECREASE_RAMPING : ℤ := 1

/-- Constant `MAX_DECREASE_RAMPING`. -/
def MAX_DECREASE_RAMPING : ℤ := 30

/-- Configuration of the motion core: ramping rates (`accRate`, `decRate`,
each a `uint8_t`) and the four per-motor per-direction trim offsets
(`FWD_LEFT_TRIM`, `REV_LEFT_TRIM`, `FWD_RIGHT_TRIM`, `REV_RIGHT_TRIM`,
each a `uint8_t`; compiled-in defaults `0, 0, 4, 0`). -/
structure Cfg where
  accRate : ℤ
  decRate : ℤ
  fwdLeftTrim : ℤ
  revLeftTrim : ℤ
  fwdRightTrim : ℤ
  revRightTrim : ℤ

/-- The persistent mutable state of the motion core:
`prevLeftMotorSpeed` / `prevRightMotorSpeed` (the statics of
`setLeftRightMotorSpeeds`, last committed motor-speed commands, `uint16_t`,
initially 0), the interlock flags `directionChanged`, `leftResetComplete`,
`rightResetComplete`, and `prevLeft` / `prevRight` (the previous drive
speeds of the `drive` function, `int16_t`, initially 500). -/
structure St where
  prevLeftCmd : ℤ
  prevRightCmd : ℤ
  directionChanged : Bool
  leftResetComplete : Bool
  rightResetComplete : Bool
  prevLeft : ℤ
  prevRight : ℤ

/-- Cold-start state: both committed commands 0, `directionChanged = false`,
both reset-complete flags `true`, both previous drive speeds at
`NEUTRAL_SPEED` (500). -/
def initSt : St := ⟨0, 0, false, true, true, 500, 500⟩

/-- The motor-speed computation of `setLeftRightMotorSpeeds`
(part_000 lines 1243-1270): forward and reverse use only `moveValue`
(with the forward/reverse trims subtracted/added), turning uses only
`rotateValue`.  The results are stored in `uint16_t` locals, hence `u16`. -/
def motorCmds (c : Cfg) (moveValue rotateValue : ℤ) : ℤ × ℤ :=
  if 0 < moveValue then
    (u16 (moveValue - c.fwdLeftTrim), u16 (moveValue - c.fwdRightTrim))
  else if moveValue < 0 then
    (u16 (moveValue + c.revLeftTrim), u16 (moveValue + c.revRightTrim))
  else if rotateValue < 0 then
    (u16 (rotateValue + c.revLeftTrim), u16 (-rotateValue - c.fwdRightTrim))
  else if 0 < rotateValue then
    (u16 (rotateValue - c.fwdLeftTrim), u16 (-rotateValue + c.revRightTrim))
  else (0, 0)

/-- The direction-change detection of `setLeftRightMotorSpeeds`
(part_000 lines 1272-1280): if either newly computed motor speed differs
from the previous committed one, set `directionChanged` and clear both
reset-complete flags; in either case commit the new speeds. -/
def commitTargets (s : St) (lCmd rCmd : ℤ) : St :=
  if lCmd ≠ s.prevLeftCmd ∨ rCmd ≠ s.prevRightCmd then
    { s with prevLeftCmd := lCmd, prevRightCmd := rCmd,
             directionChanged := true,
             leftResetComplete := false, rightResetComplete := false }
  else
    { s with prevLeftCmd := lCmd, prevRightCmd := rCmd }

/-- The pulse-offset mapping at the top of each motor section of `drive`:
`map(nextSpeed, -512, 512, 0, FORWARD_PULSE - REVERSE_PULSE)` stored into a
`uint16_t`. -/
def mapDriveSpeed (x : ℤ) : ℤ := u16 (amap x (-512) 512 0 (FORWARD_PULSE - REVERSE_PULSE))

/-- The left-motor rate limiter of `drive` (part_000 lines 1323-1339).
`prev` is `prevLeft : int16_t`, `t` the mapped target (`uint16_t`).  The
comparisons are between a `uint16_t` and an `int`, so C converts the `int`
side to 16-bit unsigned, hence the `% 65536`.  The saturation guard on the
increase side checks `prevLeft + accRate < FORWARD_PULSE - REVERSE_PULSE`. -/
def driveLimitLeft (accRate prev t : ℤ) : ℤ :=
  if (prev + accRate) % 65536 < t then
    (if (prev + accRate) % 65536 < FORWARD_PULSE - REVERSE_PULSE then prev + accRate
     else FORWARD_PULSE - REVERSE_PULSE)
  else if t < (prev - accRate) % 65536 then
    (if 0 < prev - accRate then prev - accRate else 0)
  else t

/-- The right-motor rate limiter of `drive` (part_000 lines 1362-1377).
Unlike the left motor, the saturation guard on the increase side checks
`rightDriveSpeed < FORWARD_PULSE - REVERSE_PULSE` (the mapped target
itself, not `prevRight + accRate`), so a full-scale target falls through
to the `else` and is emitted unramped. -/
def driveLimitRight (accRate prev t : ℤ) : ℤ :=
  if (prev + accRate) % 65536 < t then
    (if t < FORWARD_PULSE - REVERSE_PULSE then prev + accRate
     else FORWARD_PULSE - REVERSE_PULSE)
  else if t < (prev - accRate) % 65536 then
    (if 0 < prev - accRate then prev - accRate else 0)
  else t

/-- One motor's speed update in an iteration of the `resetMotorSpeeds`
loop (part_000 lines 1412-1418 / 1435-1441): step by `decRate` toward
`NEUTRAL_SPEED`, leaving the speed unchanged once inside the band
`[NEUTRAL_SPEED - decRate, NEUTRAL_SPEED + decRate]`. -/
def resetSpeedStep (decRate v : ℤ) : ℤ :=
  if NEUTRAL_SPEED + decRate < v then v - decRate
  else if v < NEUTRAL_SPEED - decRate then v + decRate
  else v

/-- Whether a motor speed is inside the neutral band of the resync loop:
exactly the `else` case of `resetSpeedStep`, where the code sets the
corresponding reset-complete flag. -/
def inNeutralBand (decRate v : ℤ) : Bool :=
  decide (¬ NEUTRAL_SPEED + decRate < v ∧ ¬ v < NEUTRAL_SPEED - decRate)

/-- One full iteration of the `while (directionChanged)` loop of
`resetMotorSpeeds` (part_000 lines 1407-1459): update both motor speeds,
set each reset-complete flag when the corresponding motor is in the
neutral band, and clear `directionChanged` once both flags are set. -/
def resyncIter (decRate : ℤ) (s : St) : St :=
  { s with
    prevLeft := resetSpeedStep decRate s.prevLeft,
    prevRight := resetSpeedStep decRate s.prevRight,
    leftResetComplete := s.leftResetComplete || inNeutralBand decRate s.prevLeft,
    rightResetComplete := s.rightResetComplete || inNeutralBand decRate s.prevRight,
    directionChanged :=
      if (s.leftResetComplete || inNeutralBand decRate s.prevLeft)
          && (s.rightResetComplete || inNeutralBand decRate s.prevRight)
      then false else s.directionChanged }

/-- The `resetMotorSpeeds` loop, fuelled: iterate `resyncIter` while
`directionChanged` holds, collecting the pulse pair
`(REVERSE_PULSE + leftResetSpeed, REVERSE_PULSE + rightResetSpeed)`
written to the motors on each iteration.  The loop in the source has no
fuel; termination (for any in-range state and `decRate ≥ 1`) is proved
below, and the fuel used by `drive` exceeds the proved bound. -/
def resyncRun (decRate : ℤ) : ℕ → St → St × List (ℤ × ℤ)
  | 0, s => (s, [])
  | Nat.succ n, s =>
    if s.directionChanged then
      let s1 := resyncIter decRate s
      let rest := resyncRun decRate n s1
      (rest.1, (REVERSE_PULSE + s1.prevLeft, REVERSE_PULSE + s1.prevRight) :: rest.2)
    else (s, [])

/-- Fuel given to `resyncRun` inside `drive`; larger than the worst-case
iteration count (at most `|prevLeft - 500| + |prevRight - 500| + 1 ≤ 1001`
iterations for in-range speeds and `decRate ≥ 1`). -/
def RESYNC_FUEL : ℕ := 1200

/-- The `drive` function (part_000 lines 1304-1390): if a direction change
is pending, first run the blocking resync loop; then map each commanded
speed to a pulse offset, rate-limit it against the previous drive speed,
and emit `REVERSE_PULSE + driveSpeed` for each motor.  Returns the new
state and the list of pulse pairs written to the motors this call. -/
def drive (accRate decRate : ℤ) (s : St) (nextLeftSpeed nextRightSpeed : ℤ) :
    St × List (ℤ × ℤ) :=
  let p := if s.directionChanged then resyncRun decRate RESYNC_FUEL s else (s, [])
  let lNew := driveLimitLeft accRate p.1.prevLeft (mapDriveSpeed nextLeftSpeed)
  let rNew := driveLimitRight accRate p.1.prevRight (mapDriveSpeed nextRightSpeed)
  ({ p.1 with prevLeft := lNew, prevRight := rNew },
   p.2 ++ [(REVERSE_PULSE + lNew, REVERSE_PULSE + rNew)])

/-- The `setLeftRightMotorSpeeds` function (part_000 lines 1243-1285):
compute the per-motor commands, detect a direction change, then call
`drive` with the commands reinterpreted as `int16_t`. -/
def setLeftRightMotorSpeeds (c : Cfg) (s : St) (moveValue rotateValue : ℤ) :
    St × List (ℤ × ℤ) :=
  let cmds := motorCmds c moveValue rotateValue
  drive c.accRate c.decRate (commitTargets s cmds.1 cmds.2)
    (toInt16 cmds.1) (toInt16 cmds.2)

/-- A run of the vehicle-operation control loop from a given state: one
`setLeftRightMotorSpeeds` call per `(moveValue, rotateValue)` input,
concatenating the emitted pulse pairs. -/
def runCar (c : Cfg) : List (ℤ × ℤ) → St → St × List (ℤ × ℤ)
  | [], s => (s, [])
  | inp :: rest, s =>
    let p := setLeftRightMotorSpeeds c s inp.1 inp.2
    let q := runCar c rest p.1
    (q.1, p.2 ++ q.2)

/-- Clamping of an EEPROM-read percentage in `setup`
(part_000 lines 344-350): values above 100 become 100. -/
def clamp100 (v : ℤ) : ℤ := if v > 100 then 100 else v

/-- The `forwardThresh` derivation in `setup` (part_000 line 353):
`map(pct, 0, 100, MAX_FORWARD_THRESH, MIN_FORWARD_THRESH)` applied to the
clamped percentage. -/
def setupForwardThresh (raw : ℤ) : ℤ :=
  amap (clamp100 raw) 0 100 MAX_FORWARD_THRESH MIN_FORWARD_THRESH

/-- The `reverseThresh` derivation in `setup` (part_000 line 354). -/
def setupReverseThresh (raw : ℤ) : ℤ :=
  amap (clamp100 raw) 0 100 MIN_REVERSE_THRESH MAX_REVERSE_THRESH

/-- The `leftThresh` derivation in `setup` (part_000 line 355). -/
def setupLeftThresh (raw : ℤ) : ℤ :=
  amap (clamp100 raw) 0 100 MIN_LEFT_THRESH MAX_LEFT_THRESH

/-- The `rightThresh` derivation in `setup` (part_000 line 356):
`map(pct, 0, 100, MAX_RIGHT_THRESH, MIN_RIGHT_THRESH)`. -/
def setupRightThresh (raw : ℤ) : ℤ :=
  amap (clamp100 raw) 0 100 MAX_RIGHT_THRESH MIN_RIGHT_THRESH

/-- The `speedLimit` derivation in `setup` (part_000 line 357). -/
def setupSpeedLimit (raw : ℤ) : ℤ :=
  amap (clamp100 raw) 0 100 MIN_SPEED_LIMIT MAX_SPEED_LIMIT

/-- The `accRate` derivation in `setup` (part_000 line 358). -/
def setupAccRate (raw : ℤ) : ℤ :=
  amap (clamp100 raw) 0 100 MIN_INCREASE_RAMPING MAX_INCREASE_RAMPING

/-- The `decRate` derivation in `setup` (part_000 line 359). -/
def setupDecRate (raw : ℤ) : ℤ :=
  amap (clamp100 raw) 0 100 MIN_DECREASE_RAMPING MAX_DECREASE_RAMPING

/-- The `speedLimit` value as derived from a percentage already in `[0,100]`
(shared by the setup and save paths, part_000 lines 357 and 621). -/
def speedLimitOf (pct : ℤ) : ℤ := amap pct 0 100 MIN_SPEED_LIMIT MAX_SPEED_LIMIT

/-- The `accRate` value as derived from a percentage already in `[0,100]`
(part_000 lines 358 and 622). -/
def accRateOf (pct : ℤ) : ℤ := amap pct 0 100 MIN_INCREASE_RAMPING MAX_INCREASE_RAMPING

/-- The `decRate` value as derived from a percentage already in `[0,100]`
(part_000 lines 359 and 623). -/
def decRateOf (pct : ℤ) : ℤ := amap pct 0 100 MIN_DECREASE_RAMPING MAX_DECREASE_RAMPING

/-- The `forwardThresh` derivation in the touchscreen save path
(part_000 line 617): `map(pct, 0, 100, MIN_FORWARD_THRESH, MAX_FORWARD_THRESH)`
with the endpoints in the opposite order from `setup`. -/
def saveForwardThresh (pct : ℤ) : ℤ :=
  amap pct 0 100 MIN_FORWARD_THRESH MAX_FORWARD_THRESH

/-- The `rightThresh` derivation in the touchscreen save path
(part_000 line 620): `map(pct, 0, 100, MIN_RIGHT_THRESH, MAX_RIGHT_THRESH)`
with the endpoints in the opposite order from `setup`. -/
def saveRightThresh (pct : ℤ) : ℤ :=
  amap pct 0 100 MIN_RIGHT_THRESH MAX_RIGHT_THRESH

/-- The lower end of the rotation mapping range of `getJoystickInputs`
(part_000 line 1199): the C code computes
`512 - speedLimit / TURN_SPEED_RATIO` with `TURN_SPEED_RATIO = 1.5f` and
truncates the result to `long`.  For `0 ≤ speedLimit ≤ 512` the
single-precision rounding error cannot move the value across an integer
boundary (and the division is exact whenever `3 ∣ speedLimit`), so the
truncation equals `512 - ⌈2 * speedLimit / 3⌉`, rendered here with integer
arithmetic. -/
def turnLo (speedLimit : ℤ) : ℤ := 512 - Int.tdiv (2 * speedLimit + 2) 3

/-- The upper end of the rotation mapping range of `getJoystickInputs`
(part_000 line 1199): `512 + speedLimit / TURN_SPEED_RATIO` truncated to
`long`, which equals `512 + ⌊2 * speedLimit / 3⌋` for
`0 ≤ speedLimit ≤ 512` (see `turnLo`). -/
def turnHi (speedLimit : ℤ) : ℤ := 512 + Int.tdiv (2 * speedLimit) 3

/-- The minimum-speed clamp applied to `rotateValue`
(part_000 lines 1217-1221). -/
def minSpeedClamp (rotateValue : ℤ) : ℤ :=
  if rotateValue < -3 ∧ -MIN_SPEED_LIMIT < rotateValue then -MIN_SPEED_LIMIT
  else if 3 < rotateValue ∧ rotateValue < MIN_SPEED_LIMIT then MIN_SPEED_LIMIT
  else rotateValue

/-- The joystick classifier and target-speed computation of
`getJoystickInputs` (part_000 lines 1155-1223): quantize each axis to
`{0, 512, 1023}` from the threshold comparisons (the source reads each
analog pin once per comparison, so the two X reads and the two Y reads are
separate parameters), map the X axis into
`[turnLo speedLimit, turnHi speedLimit]` and the Y axis into
`[512 - speedLimit, 512 + speedLimit]`, convert to signed
`(moveValue, rotateValue)`, and apply the minimum-speed clamp to
`rotateValue`. -/
def getJoystickInputs (speedLimit fwdThresh revThresh leftThresh rightThresh
    rawXp rawXn rawYp rawYn : ℤ) : ℤ × ℤ :=
  let xq : ℤ := if rightThresh < rawXp then 1023 else if rawXn < leftThresh then 0 else 512
  let yq : ℤ := if fwdThresh < rawYp then 1023 else if rawYn < revThresh then 0 else 512
  let x := amap xq 0 1023 (turnLo speedLimit) (turnHi speedLimit)
  let y := amap yq 0 1023 (512 - speedLimit) (512 + speedLimit)
  let moveValue := if 512 < y then y - 512 else -(512 - y)
  let rotateValue := if 512 < x then x - 512 else -(512 - x)
  (moveValue, minSpeedClamp rotateValue)

/-- The property claimed for pulse traces: no two consecutive emitted
pulses lie strictly on opposite sides of the neutral pulse 1500 (so any
sign change passes through a cycle whose output is exactly neutral). -/
def flipFree : List ℤ → Bool
  | p :: q :: rest =>
    (!((decide (p < 1500) && decide (1500 < q)) ||
       (decide (q < 1500) && decide (1500 < p)))) && flipFree (q :: rest)
  | _ => true

/-- Whenever two consecutive pulses lie strictly on opposite sides of the
neutral pulse 1500, the earlier pulse is within `b` of 1500. -/
def flipsNearNeutral (b : ℤ) : List ℤ → Prop
  | p :: q :: rest =>
    (((p < 1500 ∧ 1500 < q) ∨ (q < 1500 ∧ 1500 < p)) → |p - 1500| ≤ b) ∧
    flipsNearNeutral b (q :: rest)
  | _ => True


/-! ### Arithmetic helper lemmas -/

theorem u16_eq_self {z : ℤ} (h0 : 0 ≤ z) (h1 : z < 65536) : u16 z = z := by
  simp only [u16]
  omega

theorem toInt16_u16 {z : ℤ} (h0 : -32768 ≤ z) (h1 : z < 32768) : toInt16 (u16 z) = z := by
  simp only [toInt16, u16]
  split_ifs <;> omega

theorem mapDriveSpeed_eq {x : ℤ} (h1 : -512 ≤ x) :
    mapDriveSpeed x = ((x + 512) * 1000 / 1024) % 65536 := by
  simp only [mapDriveSpeed, amap, u16, FORWARD_PULSE, REVERSE_PULSE]
  rw [Int.tdiv_eq_ediv (by omega) (by omega)]
  norm_num

theorem mapDriveSpeed_bounds {x : ℤ} (h1 : -512 ≤ x) (h2 : x ≤ 512) :
    0 ≤ mapDriveSpeed x ∧ mapDriveSpeed x ≤ 1000 := by
  rw [mapDriveSpeed_eq h1]
  have h : 0 ≤ (x + 512) * 1000 / 1024 ∧ (x + 512) * 1000 / 1024 ≤ 1000 := by
    constructor <;> omega
  rw [Int.emod_eq_of_lt h.1 (by omega)]
  exact h

/-! ### Rate limiter lemmas -/

theorem driveLimitLeft_mem {acc prev t : ℤ} (ha0 : 0 ≤ acc) (ha1 : acc ≤ 255)
    (hp0 : 0 ≤ prev) (hp1 : prev ≤ 1000) (ht0 : 0 ≤ t) (ht1 : t ≤ 1000) :
    0 ≤ driveLimitLeft acc prev t ∧ driveLimitLeft acc prev t ≤ 1000 := by
  simp only [driveLimitLeft, FORWARD_PULSE, REVERSE_PULSE]
  split_ifs <;> constructor <;> omega

theorem driveLimitRight_mem {acc prev t : ℤ} (ha0 : 0 ≤ acc) (ha1 : acc ≤ 255)
    (hp0 : 0 ≤ prev) (hp1 : prev ≤ 1000) (ht0 : 0 ≤ t) (ht1 : t ≤ 1000) :
    0 ≤ driveLimitRight acc prev t ∧ driveLimitRight acc prev t ≤ 1000 := by
  simp only [driveLimitRight, FORWARD_PULSE, REVERSE_PULSE]
  split_ifs <;> constructor <;> omega

theorem driveLimitLeft_rate {acc prev t : ℤ} (ha0 : 0 ≤ acc) (ha1 : acc ≤ 255)
    (hp0 : 0 ≤ prev) (hp1 : prev ≤ 1000) (ht0 : 0 ≤ t) (ht1 : t ≤ 1000) :
    prev - acc ≤ driveLimitLeft acc prev t ∧ driveLimitLeft acc prev t ≤ prev + acc := by
  simp only [driveLimitLeft, FORWARD_PULSE, REVERSE_PULSE]
  split_ifs <;> constructor <;> omega

theorem driveLimitLeft_flip_near {acc prev t : ℤ} (ha0 : 0 ≤ acc) (ha1 : acc ≤ 255)
    (hp0 : 0 ≤ prev) (hp1 : prev ≤ 1000) (ht0 : 0 ≤ t) (ht1 : t ≤ 1000)
    (hflip : (driveLimitLeft acc prev t < 500 ∧ 500 < prev) ∨
             (prev < 500 ∧ 500 < driveLimitLeft acc prev t)) :
    500 - acc ≤ prev ∧ prev ≤ 500 + acc := by
  simp only [driveLimitLeft, FORWARD_PULSE, REVERSE_PULSE] at hflip
  rcases hflip with h | h <;> [skip; skip] <;>
    (first | (revert h; split_ifs <;> intro h <;> omega))

theorem driveLimitRight_flip_near_of_lt {acc prev t : ℤ} (ha0 : 0 ≤ acc) (ha1 : acc ≤ 255)
    (hp0 : 0 ≤ prev) (hp1 : prev ≤ 1000) (ht0 : 0 ≤ t) (ht1 : t < 1000)
    (hflip : (driveLimitRight acc prev t < 500 ∧ 500 < prev) ∨
             (prev < 500 ∧ 500 < driveLimitRight acc prev t)) :
    500 - acc ≤ prev ∧ prev ≤ 500 + acc := by
  simp only [driveLimitRight, FORWARD_PULSE, REVERSE_PULSE] at hflip
  rcases hflip with h | h <;> [skip; skip] <;>
    (first | (revert h; split_ifs <;> intro h <;> omega))

theorem driveLimitRight_full {acc prev : ℤ} (ha0 : 0 ≤ acc) (ha1 : acc ≤ 255)
    (hp0 : 0 ≤ prev) (hp1 : prev ≤ 1000) :
    driveLimitRight acc prev 1000 = 1000 := by
  simp only [driveLimitRight, FORWARD_PULSE, REVERSE_PULSE]
  split_ifs <;> omega

/-! ### Resync step lemmas -/

theorem resetSpeedStep_mem {dec v : ℤ} (hd0 : 1 ≤ dec) (hd1 : dec ≤ 255)
    (hv0 : 0 ≤ v) (hv1 : v ≤ 1000) :
    0 ≤ resetSpeedStep dec v ∧ resetSpeedStep dec v ≤ 1000 := by
  simp only [resetSpeedStep, NEUTRAL_SPEED]
  split_ifs <;> constructor <;> omega

theorem resetSpeedStep_band {dec v : ℤ} (hb : 500 - dec ≤ v ∧ v ≤ 500 + dec) :
    resetSpeedStep dec v = v := by
  simp only [resetSpeedStep, NEUTRAL_SPEED]
  split_ifs <;> omega

theorem resetSpeedStep_no_cross {dec v : ℤ} (hd0 : 0 ≤ dec) :
    ¬ ((resetSpeedStep dec v < 500 ∧ 500 < v) ∨ (v < 500 ∧ 500 < resetSpeedStep dec v)) := by
  simp only [resetSpeedStep, NEUTRAL_SPEED]
  split_ifs <;> omega

theorem resetSpeedStep_dist_le {dec v : ℤ} (hd0 : 0 ≤ dec) :
    (resetSpeedStep dec v - 500).natAbs ≤ (v - 500).natAbs := by
  simp only [resetSpeedStep, NEUTRAL_SPEED]
  split_ifs <;> omega

theorem resetSpeedStep_dist_lt {dec v : ℤ} (hd0 : 1 ≤ dec)
    (h : ¬ (500 - dec ≤ v ∧ v ≤ 500 + dec)) :
    (resetSpeedStep dec v - 500).natAbs < (v - 500).natAbs := by
  simp only [resetSpeedStep, NEUTRAL_SPEED]
  split_ifs <;> omega

theorem inNeutralBand_iff {dec v : ℤ} :
    inNeutralBand dec v = true ↔ 500 - dec ≤ v ∧ v ≤ 500 + dec := by
  simp only [inNeutralBand, NEUTRAL_SPEED, decide_eq_true_eq]
  omega


/-! ### Resync loop lemmas -/

theorem resyncRun_stop {dec : ℤ} {s : St} (h : s.directionChanged = false) (n : ℕ) :
    resyncRun dec n s = (s, []) := by
  cases n <;> simp [resyncRun, h]

theorem resyncIter_dir_true {dec : ℤ} {s : St}
    (h : ((s.leftResetComplete || inNeutralBand dec s.prevLeft) &&
          (s.rightResetComplete || inNeutralBand dec s.prevRight)) = false) :
    (resyncIter dec s).directionChanged = s.directionChanged := by
  simp [resyncIter, h]

theorem resyncRun_complete {dec : ℤ} (hd0 : 1 ≤ dec) (hd1 : dec ≤ 255) :
    ∀ (fuel : ℕ) (s : St),
      0 ≤ s.prevLeft → s.prevLeft ≤ 1000 → 0 ≤ s.prevRight → s.prevRight ≤ 1000 →
      (s.leftResetComplete = true → 500 - dec ≤ s.prevLeft ∧ s.prevLeft ≤ 500 + dec) →
      (s.rightResetComplete = true → 500 - dec ≤ s.prevRight ∧ s.prevRight ≤ 500 + dec) →
      s.directionChanged = true →
      (s.prevLeft - 500).natAbs + (s.prevRight - 500).natAbs < fuel →
      (resyncRun dec fuel s).1.directionChanged = false ∧
      (resyncRun dec fuel s).1.leftResetComplete = true ∧
      (resyncRun dec fuel s).1.rightResetComplete = true ∧
      (500 - dec ≤ (resyncRun dec fuel s).1.prevLeft ∧
        (resyncRun dec fuel s).1.prevLeft ≤ 500 + dec) ∧
      (500 - dec ≤ (resyncRun dec fuel s).1.prevRight ∧
        (resyncRun dec fuel s).1.prevRight ≤ 500 + dec) ∧
      (resyncRun dec fuel s).1.prevLeftCmd = s.prevLeftCmd ∧
      (resyncRun dec fuel s).1.prevRightCmd = s.prevRightCmd ∧
      ∃ pre, (resyncRun dec fuel s).2 =
        pre ++ [(REVERSE_PULSE + (resyncRun dec fuel s).1.prevLeft,
                 REVERSE_PULSE + (resyncRun dec fuel s).1.prevRight)] := by
  intro fuel
  induction fuel with
  | zero => intro s _ _ _ _ _ _ _ hm; omega
  | succ n ih =>
    intro s hL0 hL1 hR0 hR1 hfl hfr hdir hm
    by_cases hb : ((s.leftResetComplete || inNeutralBand dec s.prevLeft) &&
        (s.rightResetComplete || inNeutralBand dec s.prevRight)) = true
    · have hbandL : 500 - dec ≤ s.prevLeft ∧ s.prevLeft ≤ 500 + dec := by
        rcases Bool.and_eq_true _ _ |>.mp hb with ⟨h1, h2⟩
        rcases Bool.or_eq_true _ _ |>.mp h1 with h | h
        · exact hfl h
        · exact inNeutralBand_iff.mp h
      have hbandR : 500 - dec ≤ s.prevRight ∧ s.prevRight ≤ 500 + dec := by
        rcases Bool.and_eq_true _ _ |>.mp hb with ⟨h1, h2⟩
        rcases Bool.or_eq_true _ _ |>.mp h2 with h | h
        · exact hfr h
        · exact inNeutralBand_iff.mp h
      have hIter : resyncIter dec s =
          { s with
            prevLeft := s.prevLeft, prevRight := s.prevRight,
            leftResetComplete := true, rightResetComplete := true,
            directionChanged := false } := by
        rcases Bool.and_eq_true _ _ |>.mp hb with ⟨h1, h2⟩
        simp [resyncIter, hb, h1, h2, resetSpeedStep_band hbandL, resetSpeedStep_band hbandR]
      simp only [resyncRun, hdir, if_true, hIter]
      rw [resyncRun_stop (by simp) n]
      refine ⟨rfl, rfl, rfl, by simpa using hbandL, by simpa using hbandR, rfl, rfl, [], by simp⟩
    · have hb' : ((s.leftResetComplete || inNeutralBand dec s.prevLeft) &&
          (s.rightResetComplete || inNeutralBand dec s.prevRight)) = false := by
        simpa using hb
      have hnotboth : inNeutralBand dec s.prevLeft = false ∨
          inNeutralBand dec s.prevRight = false := by
        rcases Bool.and_eq_false_iff.mp hb' with h | h
        · exact Or.inl (Bool.or_eq_false_iff.mp h).2
        · exact Or.inr (Bool.or_eq_false_iff.mp h).2
      have hs1L0 : 0 ≤ (resyncIter dec s).prevLeft := by
        simpa [resyncIter] using (resetSpeedStep_mem hd0 hd1 hL0 hL1).1
      have hs1L1 : (resyncIter dec s).prevLeft ≤ 1000 := by
        simpa [resyncIter] using (resetSpeedStep_mem hd0 hd1 hL0 hL1).2
      have hs1R0 : 0 ≤ (resyncIter dec s).prevRight := by
        simpa [resyncIter] using (resetSpeedStep_mem hd0 hd1 hR0 hR1).1
      have hs1R1 : (resyncIter dec s).prevRight ≤ 1000 := by
        simpa [resyncIter] using (resetSpeedStep_mem hd0 hd1 hR0 hR1).2
      have hs1fl : (resyncIter dec s).leftResetComplete = true →
          500 - dec ≤ (resyncIter dec s).prevLeft ∧ (resyncIter dec s).prevLeft ≤ 500 + dec := by
        intro h
        simp only [resyncIter] at h ⊢
        rcases Bool.or_eq_true _ _ |>.mp h with h | h
        · have hband := hfl h
          rw [resetSpeedStep_band hband]; exact hband
        · have hband := inNeutralBand_iff.mp h
          rw [resetSpeedStep_band hband]; exact hband
      have hs1fr : (resyncIter dec s).rightResetComplete = true →
          500 - dec ≤ (resyncIter dec s).prevRight ∧ (resyncIter dec s).prevRight ≤ 500 + dec := by
        intro h
        simp only [resyncIter] at h ⊢
        rcases Bool.or_eq_true _ _ |>.mp h with h | h
        · have hband := hfr h
          rw [resetSpeedStep_band hband]; exact hband
        · have hband := inNeutralBand_iff.mp h
          rw [resetSpeedStep_band hband]; exact hband
      have hs1dir : (resyncIter dec s).directionChanged = true := by
        rw [resyncIter_dir_true hb']; exact hdir
      have hs1m : ((resyncIter dec s).prevLeft - 500).natAbs +
          ((resyncIter dec s).prevRight - 500).natAbs < n := by
        have hle1 : ((resyncIter dec s).prevLeft - 500).natAbs ≤ (s.prevLeft - 500).natAbs := by
          simpa [resyncIter] using @resetSpeedStep_dist_le dec s.prevLeft (by omega)
        have hle2 : ((resyncIter dec s).prevRight - 500).natAbs ≤ (s.prevRight - 500).natAbs := by
          simpa [resyncIter] using @resetSpeedStep_dist_le dec s.prevRight (by omega)
        rcases hnotboth with h | h
        · have hlt : ((resyncIter dec s).prevLeft - 500).natAbs < (s.prevLeft - 500).natAbs := by
            have hnb : ¬ (500 - dec ≤ s.prevLeft ∧ s.prevLeft ≤ 500 + dec) := by
              intro hcontra
              exact absurd (inNeutralBand_iff.mpr hcontra) (by simp [h])
            simpa [resyncIter] using resetSpeedStep_dist_lt hd0 hnb
          omega
        · have hlt : ((resyncIter dec s).prevRight - 500).natAbs < (s.prevRight - 500).natAbs := by
            have hnb : ¬ (500 - dec ≤ s.prevRight ∧ s.prevRight ≤ 500 + dec) := by
              intro hcontra
              exact absurd (inNeutralBand_iff.mpr hcontra) (by simp [h])
            simpa [resyncIter] using resetSpeedStep_dist_lt hd0 hnb
          omega
      have hcmdL : (resyncIter dec s).prevLeftCmd = s.prevLeftCmd := by simp [resyncIter]
      have hcmdR : (resyncIter dec s).prevRightCmd = s.prevRightCmd := by simp [resyncIter]
      obtain ⟨c1, c2, c3, c4, c5, c6, c7, pre, hpre⟩ :=
        ih (resyncIter dec s) hs1L0 hs1L1 hs1R0 hs1R1 hs1fl hs1fr hs1dir hs1m
      simp only [resyncRun, hdir, if_true]
      refine ⟨c1, c2, c3, c4, c5, by rw [c6, hcmdL], by rw [c7, hcmdR],
        (REVERSE_PULSE + (resyncIter dec s).prevLeft,
         REVERSE_PULSE + (resyncIter dec s).prevRight) :: pre, by simp [hpre]⟩


theorem resyncRun_mem {dec : ℤ} (hd0 : 1 ≤ dec) (hd1 : dec ≤ 255) :
    ∀ (fuel : ℕ) (s : St),
      0 ≤ s.prevLeft → s.prevLeft ≤ 1000 → 0 ≤ s.prevRight → s.prevRight ≤ 1000 →
      (0 ≤ (resyncRun dec fuel s).1.prevLeft ∧ (resyncRun dec fuel s).1.prevLeft ≤ 1000 ∧
       0 ≤ (resyncRun dec fuel s).1.prevRight ∧ (resyncRun dec fuel s).1.prevRight ≤ 1000) ∧
      ∀ pr ∈ (resyncRun dec fuel s).2,
        1000 ≤ pr.1 ∧ pr.1 ≤ 2000 ∧ 1000 ≤ pr.2 ∧ pr.2 ≤ 2000 := by
  intro fuel
  induction fuel with
  | zero => intro s h1 h2 h3 h4; simp [resyncRun]; omega
  | succ n ih =>
    intro s h1 h2 h3 h4
    by_cases hdir : s.directionChanged = true
    · have hL := resetSpeedStep_mem hd0 hd1 h1 h2
      have hR := resetSpeedStep_mem hd0 hd1 h3 h4
      have hL' : 0 ≤ (resyncIter dec s).prevLeft ∧ (resyncIter dec s).prevLeft ≤ 1000 := by
        simpa [resyncIter] using hL
      have hR' : 0 ≤ (resyncIter dec s).prevRight ∧ (resyncIter dec s).prevRight ≤ 1000 := by
        simpa [resyncIter] using hR
      obtain ⟨hmem, hpul⟩ := ih (resyncIter dec s) hL'.1 hL'.2 hR'.1 hR'.2
      simp only [resyncRun, hdir, if_true]
      refine ⟨hmem, ?_⟩
      intro pr hpr
      rcases List.mem_cons.mp hpr with h | h
      · subst h
        simp only [REVERSE_PULSE]
        constructor
        · omega
        constructor
        · omega
        constructor
        · omega
        · omega
      · exact hpul pr h
    · have hdir' : s.directionChanged = false := by simpa using hdir
      rw [resyncRun_stop hdir']
      simp
      omega

theorem resyncRun_no_flip {dec b : ℤ} (hd0 : 0 ≤ dec) :
    ∀ (fuel : ℕ) (s : St),
      flipsNearNeutral b
        ((REVERSE_PULSE + s.prevLeft) :: (resyncRun dec fuel s).2.map Prod.fst) ∧
      flipsNearNeutral b
        ((REVERSE_PULSE + s.prevRight) :: (resyncRun dec fuel s).2.map Prod.snd) := by
  intro fuel
  induction fuel with
  | zero => intro s; simp [resyncRun, flipsNearNeutral]
  | succ n ih =>
    intro s
    by_cases hdir : s.directionChanged = true
    · obtain ⟨ihL, ihR⟩ := ih (resyncIter dec s)
      simp only [resyncRun, hdir, if_true, List.map_cons]
      constructor
      · refine ⟨?_, ?_⟩
        · intro hflip
          exfalso
          apply @resetSpeedStep_no_cross dec s.prevLeft hd0
          have hstep : (resyncIter dec s).prevLeft = resetSpeedStep dec s.prevLeft := by
            simp [resyncIter]
          rw [hstep] at hflip
          simp only [REVERSE_PULSE] at hflip
          rcases hflip with ⟨ha, hb⟩ | ⟨ha, hb⟩
          · exact Or.inr ⟨by omega, by omega⟩
          · exact Or.inl ⟨by omega, by omega⟩
        · exact ihL
      · refine ⟨?_, ?_⟩
        · intro hflip
          exfalso
          apply @resetSpeedStep_no_cross dec s.prevRight hd0
          have hstep : (resyncIter dec s).prevRight = resetSpeedStep dec s.prevRight := by
            simp [resyncIter]
          rw [hstep] at hflip
          simp only [REVERSE_PULSE] at hflip
          rcases hflip with ⟨ha, hb⟩ | ⟨ha, hb⟩
          · exact Or.inr ⟨by omega, by omega⟩
          · exact Or.inl ⟨by omega, by omega⟩
        · exact ihR
    · have hdir' : s.directionChanged = false := by simpa using hdir
      rw [resyncRun_stop hdir']
      simp [flipsNearNeutral]

theorem flipsNearNeutral_glue {b : ℤ} :
    ∀ (xs : List ℤ) (x y : ℤ) (ys : List ℤ),
      flipsNearNeutral b (x :: (xs ++ [y])) → flipsNearNeutral b (y :: ys) →
      flipsNearNeutral b (x :: (xs ++ [y] ++ ys)) := by
  intro xs
  induction xs with
  | nil =>
    intro x y ys h1 h2
    simp only [List.nil_append, List.cons_append, List.singleton_append] at h1 ⊢
    exact ⟨h1.1, h2⟩
  | cons a xs ih =>
    intro x y ys h1 h2
    simp only [List.cons_append] at h1 ⊢
    exact ⟨h1.1, ih a y ys h1.2 h2⟩


/-! ### Control-cycle invariant -/

/-- Invariant holding at every cycle boundary of the control loop: the
interlock is quiescent (`directionChanged` false, both reset-complete
flags set), both previous drive speeds are in `[0, 1000]`, and the right
motor can only have a committed full-scale target if its drive speed has
already jumped to full scale (a consequence of the asymmetric guard in
`driveLimitRight`). -/
def StInv (s : St) : Prop :=
  s.directionChanged = false ∧ s.leftResetComplete = true ∧ s.rightResetComplete = true ∧
  0 ≤ s.prevLeft ∧ s.prevLeft ≤ 1000 ∧ 0 ≤ s.prevRight ∧ s.prevRight ≤ 1000 ∧
  (mapDriveSpeed (toInt16 s.prevRightCmd) = 1000 → s.prevRight = 1000)

theorem motorCmds_bounds {c : Cfg} {mv rv : ℤ}
    (ht1 : 0 ≤ c.fwdLeftTrim) (ht2 : c.fwdLeftTrim ≤ 255)
    (ht3 : 0 ≤ c.revLeftTrim) (ht4 : c.revLeftTrim ≤ 255)
    (ht5 : 0 ≤ c.fwdRightTrim) (ht6 : c.fwdRightTrim ≤ 255)
    (ht7 : 0 ≤ c.revRightTrim) (ht8 : c.revRightTrim ≤ 255)
    (hm1 : -512 ≤ mv) (hm2 : mv ≤ 512) (hr1 : -512 ≤ rv) (hr2 : rv ≤ 512) :
    (-512 ≤ toInt16 (motorCmds c mv rv).1 ∧ toInt16 (motorCmds c mv rv).1 ≤ 512) ∧
    (-512 ≤ toInt16 (motorCmds c mv rv).2 ∧ toInt16 (motorCmds c mv rv).2 ≤ 512) := by
  simp only [motorCmds]
  split_ifs <;> dsimp only <;> simp only [toInt16, u16] <;>
    split_ifs <;> refine ⟨⟨?_, ?_⟩, ?_, ?_⟩ <;> omega

theorem drive_eq_no_resync {acc dec : ℤ} {s : St} (h : s.directionChanged = false)
    (nL nR : ℤ) :
    drive acc dec s nL nR =
      ({ s with prevLeft := driveLimitLeft acc s.prevLeft (mapDriveSpeed nL),
                prevRight := driveLimitRight acc s.prevRight (mapDriveSpeed nR) },
       [(REVERSE_PULSE + driveLimitLeft acc s.prevLeft (mapDriveSpeed nL),
         REVERSE_PULSE + driveLimitRight acc s.prevRight (mapDriveSpeed nR))]) := by
  simp [drive, h]

theorem drive_eq_resync {acc dec : ℤ} {s : St} (h : s.directionChanged = true)
    (nL nR : ℤ) :
    drive acc dec s nL nR =
      ({ (resyncRun dec RESYNC_FUEL s).1 with
          prevLeft :=
            driveLimitLeft acc (resyncRun dec RESYNC_FUEL s).1.prevLeft (mapDriveSpeed nL),
          prevRight :=
            driveLimitRight acc (resyncRun dec RESYNC_FUEL s).1.prevRight (mapDriveSpeed nR) },
       (resyncRun dec RESYNC_FUEL s).2 ++
        [(REVERSE_PULSE +
            driveLimitLeft acc (resyncRun dec RESYNC_FUEL s).1.prevLeft (mapDriveSpeed nL),
          REVERSE_PULSE +
            driveLimitRight acc (resyncRun dec RESYNC_FUEL s).1.prevRight (mapDriveSpeed nR))]) := by
  simp [drive, h]

theorem commitTargets_of_eq {s : St} {lCmd rCmd : ℤ}
    (h1 : lCmd = s.prevLeftCmd) (h2 : rCmd = s.prevRightCmd) :
    commitTargets s lCmd rCmd = { s with prevLeftCmd := lCmd, prevRightCmd := rCmd } := by
  simp [commitTargets, h1, h2]

theorem commitTargets_of_ne {s : St} {lCmd rCmd : ℤ}
    (h : lCmd ≠ s.prevLeftCmd ∨ rCmd ≠ s.prevRightCmd) :
    commitTargets s lCmd rCmd =
      { s with prevLeftCmd := lCmd, prevRightCmd := rCmd,
               directionChanged := true,
               leftResetComplete := false, rightResetComplete := false } := by
  simp only [commitTargets]
  rw [if_pos h]

theorem setLeftRightMotorSpeeds_eq (c : Cfg) (s : St) (mv rv : ℤ) :
    setLeftRightMotorSpeeds c s mv rv =
      drive c.accRate c.decRate
        (commitTargets s (motorCmds c mv rv).1 (motorCmds c mv rv).2)
        (toInt16 (motorCmds c mv rv).1) (toInt16 (motorCmds c mv rv).2) := rfl

theorem flipsNearNeutral_single {b p : ℤ} : flipsNearNeutral b [p] := by
  simp [flipsNearNeutral]

theorem flipsNearNeutral_pair {b p q : ℤ}
    (h : ((p < 1500 ∧ 1500 < q) ∨ (q < 1500 ∧ 1500 < p)) → |p - 1500| ≤ b) :
    flipsNearNeutral b [p, q] := by
  simp only [flipsNearNeutral]
  exact ⟨h, trivial⟩


theorem commitTargets_prevLeft (s : St) (lCmd rCmd : ℤ) :
    (commitTargets s lCmd rCmd).prevLeft = s.prevLeft := by
  unfold commitTargets
  split_ifs <;> rfl

theorem commitTargets_prevRight (s : St) (lCmd rCmd : ℤ) :
    (commitTargets s lCmd rCmd).prevRight = s.prevRight := by
  unfold commitTargets
  split_ifs <;> rfl

theorem commitTargets_prevLeftCmd (s : St) (lCmd rCmd : ℤ) :
    (commitTargets s lCmd rCmd).prevLeftCmd = lCmd := by
  unfold commitTargets
  split_ifs <;> rfl

theorem commitTargets_prevRightCmd (s : St) (lCmd rCmd : ℤ) :
    (commitTargets s lCmd rCmd).prevRightCmd = rCmd := by
  unfold commitTargets
  split_ifs <;> rfl


theorem cycle_spec {c : Cfg}
    (ha0 : 1 ≤ c.accRate) (ha1 : c.accRate ≤ 255)
    (hd0 : 1 ≤ c.decRate) (hd1 : c.decRate ≤ 255)
    (ht1 : 0 ≤ c.fwdLeftTrim) (ht2 : c.fwdLeftTrim ≤ 255)
    (ht3 : 0 ≤ c.revLeftTrim) (ht4 : c.revLeftTrim ≤ 255)
    (ht5 : 0 ≤ c.fwdRightTrim) (ht6 : c.fwdRightTrim ≤ 255)
    (ht7 : 0 ≤ c.revRightTrim) (ht8 : c.revRightTrim ≤ 255)
    {s : St} (hs : StInv s) {mv rv : ℤ}
    (hm1 : -512 ≤ mv) (hm2 : mv ≤ 512) (hr1 : -512 ≤ rv) (hr2 : rv ≤ 512) :
    StInv (setLeftRightMotorSpeeds c s mv rv).1 ∧
    (∃ pre, (setLeftRightMotorSpeeds c s mv rv).2 =
      pre ++ [((REVERSE_PULSE + (setLeftRightMotorSpeeds c s mv rv).1.prevLeft),
               (REVERSE_PULSE + (setLeftRightMotorSpeeds c s mv rv).1.prevRight))]) ∧
    (∀ pr ∈ (setLeftRightMotorSpeeds c s mv rv).2,
      1000 ≤ pr.1 ∧ pr.1 ≤ 2000 ∧ 1000 ≤ pr.2 ∧ pr.2 ≤ 2000) ∧
    flipsNearNeutral (max c.accRate c.decRate)
      ((REVERSE_PULSE + s.prevLeft) :: (setLeftRightMotorSpeeds c s mv rv).2.map Prod.fst) ∧
    flipsNearNeutral (max c.accRate c.decRate)
      ((REVERSE_PULSE + s.prevRight) :: (setLeftRightMotorSpeeds c s mv rv).2.map Prod.snd) := by
  obtain ⟨hdir, hfL, hfR, hpl0, hpl1, hpr0, hpr1, hrep⟩ := hs
  obtain ⟨⟨hcl0, hcl1⟩, hcr0, hcr1⟩ :=
    motorCmds_bounds
      ht1 ht2 ht3 ht4 ht5 ht6 ht7 ht8 hm1 hm2 hr1 hr2
  have htL := mapDriveSpeed_bounds hcl0 hcl1
  have htR := mapDriveSpeed_bounds hcr0 hcr1
  by_cases htrig :
      (motorCmds c mv rv).1 ≠ s.prevLeftCmd ∨ (motorCmds c mv rv).2 ≠ s.prevRightCmd
  · -- a resync is triggered this cycle
    have h1 : (commitTargets s (motorCmds c mv rv).1 (motorCmds c mv rv).2).directionChanged
        = true := by
      rw [commitTargets_of_ne htrig]
    have hflagL1 :
        (commitTargets s (motorCmds c mv rv).1 (motorCmds c mv rv).2).leftResetComplete
        = false := by
      rw [commitTargets_of_ne htrig]
    have hflagR1 :
        (commitTargets s (motorCmds c mv rv).1 (motorCmds c mv rv).2).rightResetComplete
        = false := by
      rw [commitTargets_of_ne htrig]
    rw [setLeftRightMotorSpeeds_eq, drive_eq_resync h1]
    obtain ⟨q1, q2, q3, ⟨q4a, q4b⟩, ⟨q5a, q5b⟩, q6, q7, pre2, hpre2⟩ :=
      resyncRun_complete hd0 hd1 RESYNC_FUEL
        (commitTargets s (motorCmds c mv rv).1 (motorCmds c mv rv).2)
        (by rw [commitTargets_prevLeft]; exact hpl0)
        (by rw [commitTargets_prevLeft]; exact hpl1)
        (by rw [commitTargets_prevRight]; exact hpr0)
        (by rw [commitTargets_prevRight]; exact hpr1)
        (by intro h; rw [hflagL1] at h; simp at h)
        (by intro h; rw [hflagR1] at h; simp at h)
        h1
        (by rw [commitTargets_prevLeft, commitTargets_prevRight]; simp [RESYNC_FUEL]; omega)
    obtain ⟨⟨m1, m2, m3, m4⟩, hpulse2⟩ :=
      resyncRun_mem hd0 hd1 RESYNC_FUEL
        (commitTargets s (motorCmds c mv rv).1 (motorCmds c mv rv).2)
        (by rw [commitTargets_prevLeft]; exact hpl0)
        (by rw [commitTargets_prevLeft]; exact hpl1)
        (by rw [commitTargets_prevRight]; exact hpr0)
        (by rw [commitTargets_prevRight]; exact hpr1)
    obtain ⟨hnfL, hnfR⟩ :=
      @resyncRun_no_flip c.decRate (max c.accRate c.decRate)
        (by omega) RESYNC_FUEL
        (commitTargets s (motorCmds c mv rv).1 (motorCmds c mv rv).2)
    refine ⟨⟨q1, q2, q3,
        (driveLimitLeft_mem (by omega) ha1 m1 m2 htL.1 htL.2).1,
        (driveLimitLeft_mem (by omega) ha1 m1 m2 htL.1 htL.2).2,
        (driveLimitRight_mem (by omega) ha1 m3 m4 htR.1 htR.2).1,
        (driveLimitRight_mem (by omega) ha1 m3 m4 htR.1 htR.2).2, ?_⟩,
      ⟨(resyncRun c.decRate RESYNC_FUEL
          (commitTargets s (motorCmds c mv rv).1 (motorCmds c mv rv).2)).2, rfl⟩,
      ?_, ?_, ?_⟩
    · -- right-motor full-scale representation invariant
      intro h
      have h' : mapDriveSpeed (toInt16 (motorCmds c mv rv).2) = 1000 := by
        rw [← commitTargets_prevRightCmd s (motorCmds c mv rv).1 (motorCmds c mv rv).2,
          ← q7]
        exact h
      show driveLimitRight c.accRate _ _ = 1000
      rw [h']
      exact driveLimitRight_full (by omega) ha1 m3 m4
    · -- pulse bounds
      intro pr hpr
      rcases List.mem_append.mp hpr with h | h
      · exact hpulse2 pr h
      · have : pr = (REVERSE_PULSE +
            driveLimitLeft c.accRate
              (resyncRun c.decRate RESYNC_FUEL
                (commitTargets s (motorCmds c mv rv).1 (motorCmds c mv rv).2)).1.prevLeft
              (mapDriveSpeed (toInt16 (motorCmds c mv rv).1)),
          REVERSE_PULSE +
            driveLimitRight c.accRate
              (resyncRun c.decRate RESYNC_FUEL
                (commitTargets s (motorCmds c mv rv).1 (motorCmds c mv rv).2)).1.prevRight
              (mapDriveSpeed (toInt16 (motorCmds c mv rv).2))) := by
          simpa using h
        subst this
        have hL := driveLimitLeft_mem (by omega) ha1 m1 m2 htL.1 htL.2
        have hR := driveLimitRight_mem (by omega) ha1 m3 m4 htR.1 htR.2
        simp only [REVERSE_PULSE]
        refine ⟨by omega, by omega, by omega, by omega⟩
    · -- left flip chain
      have harg2 : flipsNearNeutral (max c.accRate c.decRate)
          ((REVERSE_PULSE +
            (resyncRun c.decRate RESYNC_FUEL
              (commitTargets s (motorCmds c mv rv).1 (motorCmds c mv rv).2)).1.prevLeft) ::
           [REVERSE_PULSE +
            driveLimitLeft c.accRate
              (resyncRun c.decRate RESYNC_FUEL
                (commitTargets s (motorCmds c mv rv).1 (motorCmds c mv rv).2)).1.prevLeft
              (mapDriveSpeed (toInt16 (motorCmds c mv rv).1))]) := by
        refine flipsNearNeutral_pair (fun _ => ?_)
        rw [abs_le]
        simp only [REVERSE_PULSE]
        constructor <;> omega
      have harg1 := hnfL
      rw [hpre2] at harg1
      rw [commitTargets_prevLeft] at harg1
      simp only [List.map_append, List.map_cons, List.map_nil] at harg1
      have hglue := flipsNearNeutral_glue (pre2.map Prod.fst)
        (REVERSE_PULSE + s.prevLeft)
        (REVERSE_PULSE +
          (resyncRun c.decRate RESYNC_FUEL
            (commitTargets s (motorCmds c mv rv).1 (motorCmds c mv rv).2)).1.prevLeft)
        [REVERSE_PULSE +
          driveLimitLeft c.accRate
            (resyncRun c.decRate RESYNC_FUEL
              (commitTargets s (motorCmds c mv rv).1 (motorCmds c mv rv).2)).1.prevLeft
            (mapDriveSpeed (toInt16 (motorCmds c mv rv).1))]
        harg1 harg2
      rw [hpre2]
      simp only [List.map_append, List.map_cons, List.map_nil, List.append_assoc] at hglue ⊢
      exact hglue
    · -- right flip chain
      have harg2 : flipsNearNeutral (max c.accRate c.decRate)
          ((REVERSE_PULSE +
            (resyncRun c.decRate RESYNC_FUEL
              (commitTargets s (motorCmds c mv rv).1 (motorCmds c mv rv).2)).1.prevRight) ::
           [REVERSE_PULSE +
            driveLimitRight c.accRate
              (resyncRun c.decRate RESYNC_FUEL
                (commitTargets s (motorCmds c mv rv).1 (motorCmds c mv rv).2)).1.prevRight
              (mapDriveSpeed (toInt16 (motorCmds c mv rv).2))]) := by
        refine flipsNearNeutral_pair (fun _ => ?_)
        rw [abs_le]
        simp only [REVERSE_PULSE]
        constructor <;> omega
      have harg1 := hnfR
      rw [hpre2] at harg1
      rw [commitTargets_prevRight] at harg1
      simp only [List.map_append, List.map_cons, List.map_nil] at harg1
      have hglue := flipsNearNeutral_glue (pre2.map Prod.snd)
        (REVERSE_PULSE + s.prevRight)
        (REVERSE_PULSE +
          (resyncRun c.decRate RESYNC_FUEL
            (commitTargets s (motorCmds c mv rv).1 (motorCmds c mv rv).2)).1.prevRight)
        [REVERSE_PULSE +
          driveLimitRight c.accRate
            (resyncRun c.decRate RESYNC_FUEL
              (commitTargets s (motorCmds c mv rv).1 (motorCmds c mv rv).2)).1.prevRight
            (mapDriveSpeed (toInt16 (motorCmds c mv rv).2))]
        harg1 harg2
      rw [hpre2]
      simp only [List.map_append, List.map_cons, List.map_nil, List.append_assoc] at hglue ⊢
      exact hglue
  · -- no resync: the commands are unchanged
    push_neg at htrig
    have h1 : (commitTargets s (motorCmds c mv rv).1 (motorCmds c mv rv).2).directionChanged
        = false := by
      rw [commitTargets_of_eq htrig.1 htrig.2]
      exact hdir
    have hflagL1 :
        (commitTargets s (motorCmds c mv rv).1 (motorCmds c mv rv).2).leftResetComplete
        = true := by
      rw [commitTargets_of_eq htrig.1 htrig.2]
      exact hfL
    have hflagR1 :
        (commitTargets s (motorCmds c mv rv).1 (motorCmds c mv rv).2).rightResetComplete
        = true := by
      rw [commitTargets_of_eq htrig.1 htrig.2]
      exact hfR
    rw [setLeftRightMotorSpeeds_eq, drive_eq_no_resync h1]
    rw [commitTargets_prevLeft, commitTargets_prevRight]
    refine ⟨⟨h1, hflagL1, hflagR1,
        (driveLimitLeft_mem (by omega) ha1 hpl0 hpl1 htL.1 htL.2).1,
        (driveLimitLeft_mem (by omega) ha1 hpl0 hpl1 htL.1 htL.2).2,
        (driveLimitRight_mem (by omega) ha1 hpr0 hpr1 htR.1 htR.2).1,
        (driveLimitRight_mem (by omega) ha1 hpr0 hpr1 htR.1 htR.2).2, ?_⟩,
      ⟨[], by simp⟩, ?_, ?_, ?_⟩
    · -- right-motor full-scale representation invariant
      intro h
      have h' : mapDriveSpeed (toInt16 (motorCmds c mv rv).2) = 1000 := by
        rw [← commitTargets_prevRightCmd s (motorCmds c mv rv).1 (motorCmds c mv rv).2]
        exact h
      have hfull : s.prevRight = 1000 := by
        apply hrep
        rw [← htrig.2]
        exact h'
      show driveLimitRight c.accRate _ _ = 1000
      rw [h', hfull]
      exact driveLimitRight_full (by omega) ha1 (by norm_num) (by norm_num)
    · -- pulse bounds
      intro pr hpr
      have : pr = (REVERSE_PULSE +
          driveLimitLeft c.accRate s.prevLeft (mapDriveSpeed (toInt16 (motorCmds c mv rv).1)),
        REVERSE_PULSE +
          driveLimitRight c.accRate s.prevRight
            (mapDriveSpeed (toInt16 (motorCmds c mv rv).2))) := by
        simpa using hpr
      subst this
      have hL := driveLimitLeft_mem (by omega) ha1 hpl0 hpl1 htL.1 htL.2
      have hR := driveLimitRight_mem (by omega) ha1 hpr0 hpr1 htR.1 htR.2
      simp only [REVERSE_PULSE]
      refine ⟨by omega, by omega, by omega, by omega⟩
    · -- left flip pair
      simp only [List.map_cons, List.map_nil]
      refine flipsNearNeutral_pair (fun hflip => ?_)
      have hnear := driveLimitLeft_flip_near (by omega) ha1 hpl0 hpl1 htL.1 htL.2
        (by
          simp only [REVERSE_PULSE] at hflip
          rcases hflip with ⟨a, b⟩ | ⟨a, b⟩
          · exact Or.inr ⟨by omega, by omega⟩
          · exact Or.inl ⟨by omega, by omega⟩)
      rw [abs_le]
      simp only [REVERSE_PULSE]
      constructor <;> omega
    · -- right flip pair
      simp only [List.map_cons, List.map_nil]
      by_cases hfull : mapDriveSpeed (toInt16 (motorCmds c mv rv).2) = 1000
      · have hprev : s.prevRight = 1000 := by
          apply hrep
          rw [← htrig.2]
          exact hfull
        refine flipsNearNeutral_pair (fun hflip => ?_)
        exfalso
        have hnew : driveLimitRight c.accRate s.prevRight
            (mapDriveSpeed (toInt16 (motorCmds c mv rv).2)) = 1000 := by
          rw [hfull, hprev]
          exact driveLimitRight_full (by omega) ha1 (by norm_num) (by norm_num)
        rw [hnew, hprev] at hflip
        simp only [REVERSE_PULSE] at hflip
        omega
      · have hlt : mapDriveSpeed (toInt16 (motorCmds c mv rv).2) < 1000 := by
          rcases lt_or_eq_of_le htR.2 with h | h
          · exact h
          · exact absurd h hfull
        refine flipsNearNeutral_pair (fun hflip => ?_)
        have hnear := driveLimitRight_flip_near_of_lt (by omega) ha1 hpr0 hpr1 htR.1 hlt
          (by
            simp only [REVERSE_PULSE] at hflip
            rcases hflip with ⟨a, b⟩ | ⟨a, b⟩
            · exact Or.inr ⟨by omega, by omega⟩
            · exact Or.inl ⟨by omega, by omega⟩)
        rw [abs_le]
        simp only [REVERSE_PULSE]
        constructor <;> omega


theorem runCar_cons (c : Cfg) (inp : ℤ × ℤ) (rest : List (ℤ × ℤ)) (s : St) :
    runCar c (inp :: rest) s =
      ((runCar c rest (setLeftRightMotorSpeeds c s inp.1 inp.2).1).1,
       (setLeftRightMotorSpeeds c s inp.1 inp.2).2 ++
         (runCar c rest (setLeftRightMotorSpeeds c s inp.1 inp.2).1).2) := rfl

theorem runCar_spec {c : Cfg}
    (ha0 : 1 ≤ c.accRate) (ha1 : c.accRate ≤ 255)
    (hd0 : 1 ≤ c.decRate) (hd1 : c.decRate ≤ 255)
    (ht1 : 0 ≤ c.fwdLeftTrim) (ht2 : c.fwdLeftTrim ≤ 255)
    (ht3 : 0 ≤ c.revLeftTrim) (ht4 : c.revLeftTrim ≤ 255)
    (ht5 : 0 ≤ c.fwdRightTrim) (ht6 : c.fwdRightTrim ≤ 255)
    (ht7 : 0 ≤ c.revRightTrim) (ht8 : c.revRightTrim ≤ 255) :
    ∀ (inputs : List (ℤ × ℤ)) (s : St), StInv s →
      (∀ p ∈ inputs, -512 ≤ p.1 ∧ p.1 ≤ 512 ∧ -512 ≤ p.2 ∧ p.2 ≤ 512) →
      StInv (runCar c inputs s).1 ∧
      (∀ pr ∈ (runCar c inputs s).2,
        1000 ≤ pr.1 ∧ pr.1 ≤ 2000 ∧ 1000 ≤ pr.2 ∧ pr.2 ≤ 2000) ∧
      flipsNearNeutral (max c.accRate c.decRate)
        ((REVERSE_PULSE + s.prevLeft) :: (runCar c inputs s).2.map Prod.fst) ∧
      flipsNearNeutral (max c.accRate c.decRate)
        ((REVERSE_PULSE + s.prevRight) :: (runCar c inputs s).2.map Prod.snd) := by
  intro inputs
  induction inputs with
  | nil =>
    intro s hsi _
    refine ⟨hsi, by simp [runCar], ?_, ?_⟩ <;> simp [runCar, flipsNearNeutral]
  | cons inp rest ih =>
    intro s hsi hin
    have hinp := hin inp (List.mem_cons_self inp rest)
    have hrest : ∀ p ∈ rest, -512 ≤ p.1 ∧ p.1 ≤ 512 ∧ -512 ≤ p.2 ∧ p.2 ≤ 512 :=
      fun p hp => hin p (List.mem_cons_of_mem inp hp)
    obtain ⟨hsi1, ⟨pre, hpre⟩, hb1, hfl1, hfr1⟩ :=
      cycle_spec ha0 ha1 hd0 hd1 ht1 ht2 ht3 ht4 ht5 ht6 ht7 ht8 hsi
        hinp.1 hinp.2.1 hinp.2.2.1 hinp.2.2.2
    obtain ⟨hsi2, hb2, hfl2, hfr2⟩ :=
      ih (setLeftRightMotorSpeeds c s inp.1 inp.2).1 hsi1 hrest
    rw [runCar_cons]
    refine ⟨hsi2, ?_, ?_, ?_⟩
    · intro pr hpr
      rcases List.mem_append.mp hpr with h | h
      · exact hb1 pr h
      · exact hb2 pr h
    · have harg1 := hfl1
      rw [hpre] at harg1
      simp only [List.map_append, List.map_cons, List.map_nil] at harg1
      have hglue := flipsNearNeutral_glue (pre.map Prod.fst)
        (REVERSE_PULSE + s.prevLeft)
        (REVERSE_PULSE + (setLeftRightMotorSpeeds c s inp.1 inp.2).1.prevLeft)
        ((runCar c rest (setLeftRightMotorSpeeds c s inp.1 inp.2).1).2.map Prod.fst)
        harg1 hfl2
      rw [hpre]
      simp only [List.map_append, List.map_cons, List.map_nil, List.append_assoc] at hglue ⊢
      exact hglue
    · have harg1 := hfr1
      rw [hpre] at harg1
      simp only [List.map_append, List.map_cons, List.map_nil] at harg1
      have hglue := flipsNearNeutral_glue (pre.map Prod.snd)
        (REVERSE_PULSE + s.prevRight)
        (REVERSE_PULSE + (setLeftRightMotorSpeeds c s inp.1 inp.2).1.prevRight)
        ((runCar c rest (setLeftRightMotorSpeeds c s inp.1 inp.2).1).2.map Prod.snd)
        harg1 hfr2
      rw [hpre]
      simp only [List.map_append, List.map_cons, List.map_nil, List.append_assoc] at hglue ⊢
      exact hglue

theorem StInv_initSt : StInv initSt := by
  refine ⟨rfl, rfl, rfl, by norm_num [initSt], by norm_num [initSt],
    by norm_num [initSt], by norm_num [initSt], ?_⟩
  intro h
  have : mapDriveSpeed (toInt16 initSt.prevRightCmd) = 500 := by decide
  rw [this] at h
  exact absurd h (by norm_num)


/-! ### Configuration derivation lemmas -/

theorem clamp100_min {raw : ℤ} (h0 : 0 ≤ raw) :
    clamp100 raw = min raw 100 ∧ clamp100 (min raw 100) = min raw 100 := by
  simp only [clamp100]
  split_ifs <;> omega

theorem clamp100_bounds {raw : ℤ} (h0 : 0 ≤ raw) :
    0 ≤ clamp100 raw ∧ clamp100 raw ≤ 100 := by
  simp only [clamp100]
  split_ifs <;> omega

theorem clamp100_idem (raw : ℤ) : clamp100 (clamp100 raw) = clamp100 raw := by
  simp only [clamp100]
  split_ifs <;> omega

theorem setupForwardThresh_eq (raw : ℤ) :
    setupForwardThresh raw = 1000 - 4 * clamp100 raw := by
  simp only [setupForwardThresh, amap, MAX_FORWARD_THRESH, MIN_FORWARD_THRESH]
  have h : (clamp100 raw - 0) * (600 - 1000) = (100 - 0) * (-4 * clamp100 raw) := by ring
  rw [h, Int.mul_tdiv_cancel_left _ (by norm_num)]
  ring

theorem setupReverseThresh_eq (raw : ℤ) :
    setupReverseThresh raw = 4 * clamp100 raw := by
  simp only [setupReverseThresh, amap, MIN_REVERSE_THRESH, MAX_REVERSE_THRESH]
  have h : (clamp100 raw - 0) * (400 - 0) = (100 - 0) * (4 * clamp100 raw) := by ring
  rw [h, Int.mul_tdiv_cancel_left _ (by norm_num)]
  ring

theorem setupLeftThresh_eq (raw : ℤ) :
    setupLeftThresh raw = 4 * clamp100 raw := by
  simp only [setupLeftThresh, amap, MIN_LEFT_THRESH, MAX_LEFT_THRESH]
  have h : (clamp100 raw - 0) * (400 - 0) = (100 - 0) * (4 * clamp100 raw) := by ring
  rw [h, Int.mul_tdiv_cancel_left _ (by norm_num)]
  ring

theorem setupRightThresh_eq (raw : ℤ) :
    setupRightThresh raw = 1000 - 4 * clamp100 raw := by
  simp only [setupRightThresh, amap, MAX_RIGHT_THRESH, MIN_RIGHT_THRESH]
  have h : (clamp100 raw - 0) * (600 - 1000) = (100 - 0) * (-4 * clamp100 raw) := by ring
  rw [h, Int.mul_tdiv_cancel_left _ (by norm_num)]
  ring

theorem setupSpeedLimit_eq {raw : ℤ} (h0 : 0 ≤ raw) :
    setupSpeedLimit raw = clamp100 raw * 440 / 100 + 72 := by
  simp only [setupSpeedLimit, amap, MIN_SPEED_LIMIT, MAX_SPEED_LIMIT]
  rw [Int.tdiv_eq_ediv (by have := (clamp100_bounds h0).1; omega) (by norm_num)]
  norm_num

theorem setupAccRate_eq {raw : ℤ} (h0 : 0 ≤ raw) :
    setupAccRate raw = clamp100 raw * 29 / 100 + 1 := by
  simp only [setupAccRate, amap, MIN_INCREASE_RAMPING, MAX_INCREASE_RAMPING]
  rw [Int.tdiv_eq_ediv (by have := (clamp100_bounds h0).1; omega) (by norm_num)]
  norm_num

theorem setupDecRate_eq {raw : ℤ} (h0 : 0 ≤ raw) :
    setupDecRate raw = clamp100 raw * 29 / 100 + 1 := by
  simp only [setupDecRate, amap, MIN_DECREASE_RAMPING, MAX_DECREASE_RAMPING]
  rw [Int.tdiv_eq_ediv (by have := (clamp100_bounds h0).1; omega) (by norm_num)]
  norm_num

theorem speedLimitOf_eq {pct : ℤ} (h0 : 0 ≤ pct) :
    speedLimitOf pct = pct * 440 / 100 + 72 := by
  simp only [speedLimitOf, amap, MIN_SPEED_LIMIT, MAX_SPEED_LIMIT]
  rw [Int.tdiv_eq_ediv (by omega) (by norm_num)]
  norm_num

theorem speedLimitOf_bounds {pct : ℤ} (h0 : 0 ≤ pct) (h1 : pct ≤ 100) :
    72 ≤ speedLimitOf pct ∧ speedLimitOf pct ≤ 512 := by
  rw [speedLimitOf_eq h0]
  constructor <;> omega

/-! ### Joystick classifier lemmas -/

theorem amap_quant_bounds {q lo hi : ℤ} (hq : q = 0 ∨ q = 512 ∨ q = 1023)
    (hd : 0 ≤ hi - lo) :
    lo ≤ amap q 0 1023 lo hi ∧ amap q 0 1023 lo hi ≤ hi := by
  rcases hq with rfl | rfl | rfl <;>
    (simp only [amap]
     rw [Int.tdiv_eq_ediv (by omega) (by norm_num)]
     constructor <;> omega)

theorem getJoystickInputs_bounds {sl fT rT lT rtT xp xn yp yn : ℤ}
    (hsl0 : 72 ≤ sl) (hsl1 : sl ≤ 512) :
    (-sl ≤ (getJoystickInputs sl fT rT lT rtT xp xn yp yn).1 ∧
     (getJoystickInputs sl fT rT lT rtT xp xn yp yn).1 ≤ sl) ∧
    (-sl ≤ (getJoystickInputs sl fT rT lT rtT xp xn yp yn).2 ∧
     (getJoystickInputs sl fT rT lT rtT xp xn yp yn).2 ≤ sl) := by
  have ht1 : 0 ≤ Int.tdiv (2 * sl) 3 ∧ Int.tdiv (2 * sl) 3 ≤ sl := by
    rw [Int.tdiv_eq_ediv (by omega) (by norm_num)]
    constructor <;> omega
  have ht2 : 0 ≤ Int.tdiv (2 * sl + 2) 3 ∧ Int.tdiv (2 * sl + 2) 3 ≤ sl := by
    rw [Int.tdiv_eq_ediv (by omega) (by norm_num)]
    constructor <;> omega
  simp only [getJoystickInputs]
  set xq : ℤ := if rtT < xp then 1023 else if xn < lT then 0 else 512 with hxq
  set yq : ℤ := if fT < yp then 1023 else if yn < rT then 0 else 512 with hyq
  have hxq3 : xq = 0 ∨ xq = 512 ∨ xq = 1023 := by
    rw [hxq]; split_ifs <;> simp
  have hyq3 : yq = 0 ∨ yq = 512 ∨ yq = 1023 := by
    rw [hyq]; split_ifs <;> simp
  have hy := @amap_quant_bounds yq (512 - sl) (512 + sl) hyq3 (by omega)
  have hx0 := @amap_quant_bounds xq (turnLo sl) (turnHi sl) hxq3
    (by simp only [turnLo, turnHi]; omega)
  have hx : 512 - sl ≤ amap xq 0 1023 (turnLo sl) (turnHi sl) ∧
      amap xq 0 1023 (turnLo sl) (turnHi sl) ≤ 512 + sl := by
    have hlo : 512 - sl ≤ turnLo sl := by simp only [turnLo]; omega
    have hhi : turnHi sl ≤ 512 + sl := by simp only [turnHi]; omega
    constructor <;> omega
  constructor
  · dsimp only
    split_ifs <;> constructor <;> omega
  · dsimp only
    simp only [minSpeedClamp, MIN_SPEED_LIMIT]
    split_ifs <;> constructor <;> omega

theorem motorCmds_mag {c : Cfg} {mv rv sl : ℤ}
    (hsl0 : 72 ≤ sl) (hsl1 : sl ≤ 512)
    (ht1 : 0 ≤ c.fwdLeftTrim) (ht2 : c.fwdLeftTrim ≤ 72)
    (ht3 : 0 ≤ c.revLeftTrim) (ht4 : c.revLeftTrim ≤ 72)
    (ht5 : 0 ≤ c.fwdRightTrim) (ht6 : c.fwdRightTrim ≤ 72)
    (ht7 : 0 ≤ c.revRightTrim) (ht8 : c.revRightTrim ≤ 72)
    (hm0 : -sl ≤ mv) (hm1 : mv ≤ sl) (hr0 : -sl ≤ rv) (hr1 : rv ≤ sl) :
    |toInt16 (motorCmds c mv rv).1| ≤ sl ∧ |toInt16 (motorCmds c mv rv).2| ≤ sl := by
  simp only [motorCmds]
  split_ifs <;> dsimp only <;> constructor <;>
    (first
      | (rw [toInt16_u16 (by omega) (by omega), abs_le]
         constructor <;> omega)
      | (simp only [toInt16, u16]
         norm_num
         omega))


/-- Every pulse pair of a trace lies within `[REVERSE_PULSE, FORWARD_PULSE]`
for both motors. -/
def pulsesWithinBounds (l : List (ℤ × ℤ)) : Prop :=
  ∀ pr ∈ l, REVERSE_PULSE ≤ pr.1 ∧ pr.1 ≤ FORWARD_PULSE ∧
    REVERSE_PULSE ≤ pr.2 ∧ pr.2 ≤ FORWARD_PULSE

/-! ### Claim theorems -/

/-- C1, counterexample.  The spec claims that whenever the sign of a motor's
output pulse (relative to the neutral pulse 1500) changes from one cycle to
the next, some intermediate cycle output exactly neutral.  This cold-start
run with the default configuration (`accRate = 15`, `decRate = 20`, trims
`0, 0, 4, 0`, `speedLimit = 256`) — drive forward for two cycles, then
command reverse — emits the left-motor pulses
`[1500, 1515, 1530, 1510, 1510, 1495]`: the resync loop parks the motor at
drive speed 510 (inside the neutral band but not exactly neutral), and the
next drive step crosses to 495, so the pulse flips from 1510 to 1495 with
no exactly-neutral cycle in between. -/
theorem direct_sign_flip_reachable :
    (runCar ⟨15, 20, 0, 0, 4, 0⟩ [(256, -1), (256, -1), (-256, -1)] initSt).2.map Prod.fst
      = [1500, 1515, 1530, 1510, 1510, 1495] ∧
    flipFree [1500, 1515, 1530, 1510, 1510, 1495] = false := by decide

/-- C1, amended.  In every run of the control loop from the cold-start state
(with `accRate`, `decRate` in the `uint8_t` range and at least 1, trims in
the `uint8_t` range, and all commanded values in `[-512, 512]`), whenever
two consecutive emitted pulses of either motor lie strictly on opposite
sides of the neutral pulse, the earlier pulse is within one rate-limiter
step (`max accRate decRate`) of neutral: a sign change can only happen
through the neutral band reached during a resync episode or within one
ramp step of neutral. -/
theorem sign_flip_only_near_neutral (c : Cfg)
    (ha0 : 1 ≤ c.accRate) (ha1 : c.accRate ≤ 255)
    (hd0 : 1 ≤ c.decRate) (hd1 : c.decRate ≤ 255)
    (ht1 : 0 ≤ c.fwdLeftTrim) (ht2 : c.fwdLeftTrim ≤ 255)
    (ht3 : 0 ≤ c.revLeftTrim) (ht4 : c.revLeftTrim ≤ 255)
    (ht5 : 0 ≤ c.fwdRightTrim) (ht6 : c.fwdRightTrim ≤ 255)
    (ht7 : 0 ≤ c.revRightTrim) (ht8 : c.revRightTrim ≤ 255)
    (inputs : List (ℤ × ℤ))
    (hin : ∀ p ∈ inputs, -512 ≤ p.1 ∧ p.1 ≤ 512 ∧ -512 ≤ p.2 ∧ p.2 ≤ 512) :
    flipsNearNeutral (max c.accRate c.decRate)
      ((REVERSE_PULSE + initSt.prevLeft) :: (runCar c inputs initSt).2.map Prod.fst) ∧
    flipsNearNeutral (max c.accRate c.decRate)
      ((REVERSE_PULSE + initSt.prevRight) :: (runCar c inputs initSt).2.map Prod.snd) := by
  obtain ⟨_, _, h3, h4⟩ :=
    runCar_spec ha0 ha1 hd0 hd1 ht1 ht2 ht3 ht4 ht5 ht6 ht7 ht8 inputs initSt
      StInv_initSt hin
  exact ⟨h3, h4⟩

/-- Witness for `sign_flip_only_near_neutral` at the default configuration
and a concrete forward-then-reverse input sequence. -/
theorem sign_flip_only_near_neutral_witness :
    flipsNearNeutral (max ((⟨15, 20, 0, 0, 4, 0⟩ : Cfg)).accRate
        ((⟨15, 20, 0, 0, 4, 0⟩ : Cfg)).decRate)
      ((REVERSE_PULSE + initSt.prevLeft) ::
        (runCar ⟨15, 20, 0, 0, 4, 0⟩ [(256, -1), (-256, -1)] initSt).2.map Prod.fst) ∧
    flipsNearNeutral (max ((⟨15, 20, 0, 0, 4, 0⟩ : Cfg)).accRate
        ((⟨15, 20, 0, 0, 4, 0⟩ : Cfg)).decRate)
      ((REVERSE_PULSE + initSt.prevRight) ::
        (runCar ⟨15, 20, 0, 0, 4, 0⟩ [(256, -1), (-256, -1)] initSt).2.map Prod.snd) :=
  sign_flip_only_near_neutral ⟨15, 20, 0, 0, 4, 0⟩
    (by norm_num) (by norm_num) (by norm_num) (by norm_num)
    (by norm_num) (by norm_num) (by norm_num) (by norm_num)
    (by norm_num) (by norm_num) (by norm_num) (by norm_num)
    [(256, -1), (-256, -1)] (by decide)

/-- C2: the rate limiter is claimed to change each motor's output speed by
at most the configured rate per cycle, for every commanded target in the
declared domain including a full-scale one.  The right-motor code of
`drive` (part_000 lines 1362-1368) checks `rightDriveSpeed < 1000` instead
of `prevRight + accRate < 1000`, so the full-scale target 512 (mapped to
drive speed 1000) is emitted unramped: from the neutral drive speed 500
with the default `accRate = 15`, the right motor jumps by 500 in one
cycle, while the left motor (whose guard checks `prevLeft + accRate`)
correctly steps to 515. -/
theorem right_motor_rate_limit_violated_at_full_scale :
    mapDriveSpeed 512 = 1000 ∧
    driveLimitRight 15 500 (mapDriveSpeed 512) = 1000 ∧
    driveLimitLeft 15 500 (mapDriveSpeed 512) = 515 ∧
    15 < driveLimitRight 15 500 (mapDriveSpeed 512) - 500 := by decide

/-- C3: in the RUNNING state (`directionChanged = false`), the interlock
transitions to RESYNCING — sets `directionChanged` and clears both
reset-complete flags — exactly when at least one newly computed motor
speed differs from the previous committed speed (any change in value, not
only a sign change). -/
theorem resync_trigger_iff_speed_change (c : Cfg) (s : St) (mv rv : ℤ)
    (h : s.directionChanged = false) :
    ((commitTargets s (motorCmds c mv rv).1 (motorCmds c mv rv).2).directionChanged = true ∧
     (commitTargets s (motorCmds c mv rv).1 (motorCmds c mv rv).2).leftResetComplete = false ∧
     (commitTargets s (motorCmds c mv rv).1 (motorCmds c mv rv).2).rightResetComplete = false)
    ↔ ((motorCmds c mv rv).1 ≠ s.prevLeftCmd ∨ (motorCmds c mv rv).2 ≠ s.prevRightCmd) := by
  constructor
  · rintro ⟨h1, _, _⟩
    by_contra hc
    push_neg at hc
    rw [commitTargets_of_eq hc.1 hc.2] at h1
    have h1' : s.directionChanged = true := h1
    rw [h] at h1'
    exact Bool.false_ne_true h1'
  · intro hne
    rw [commitTargets_of_ne hne]
    exact ⟨rfl, rfl, rfl⟩

/-- Witness for `resync_trigger_iff_speed_change`: from the cold-start
state, commanding forward speed 256 changes both committed speeds, so the
interlock trips. -/
theorem resync_trigger_iff_speed_change_witness :
    ((commitTargets initSt (motorCmds ⟨15, 20, 0, 0, 4, 0⟩ 256 (-1)).1
        (motorCmds ⟨15, 20, 0, 0, 4, 0⟩ 256 (-1)).2).directionChanged = true ∧
     (commitTargets initSt (motorCmds ⟨15, 20, 0, 0, 4, 0⟩ 256 (-1)).1
        (motorCmds ⟨15, 20, 0, 0, 4, 0⟩ 256 (-1)).2).leftResetComplete = false ∧
     (commitTargets initSt (motorCmds ⟨15, 20, 0, 0, 4, 0⟩ 256 (-1)).1
        (motorCmds ⟨15, 20, 0, 0, 4, 0⟩ 256 (-1)).2).rightResetComplete = false)
    ↔ ((motorCmds ⟨15, 20, 0, 0, 4, 0⟩ 256 (-1)).1 ≠ initSt.prevLeftCmd ∨
       (motorCmds ⟨15, 20, 0, 0, 4, 0⟩ 256 (-1)).2 ≠ initSt.prevRightCmd) :=
  resync_trigger_iff_speed_change ⟨15, 20, 0, 0, 4, 0⟩ initSt 256 (-1) rfl

/-- C4: from any state entering the resync loop (speeds in the
representable range `[0, 1000]`, `decRate ≥ 1` in the `uint8_t` range,
`directionChanged` set and both reset-complete flags cleared, as
established by the trigger), the loop terminates within the provided fuel:
on exit `directionChanged` is false, both reset-complete flags are set
(the flag is cleared only once both are), and both motors are within one
deceleration step of `NEUTRAL_SPEED`.  Termination holds because each
iteration reduces each out-of-band motor's distance to neutral by exactly
`decRate` (see `resetSpeedStep_dist_lt`). -/
theorem resync_loop_terminates_near_neutral (dec : ℤ) (s : St)
    (hd0 : 1 ≤ dec) (hd1 : dec ≤ 255)
    (hL0 : 0 ≤ s.prevLeft) (hL1 : s.prevLeft ≤ 1000)
    (hR0 : 0 ≤ s.prevRight) (hR1 : s.prevRight ≤ 1000)
    (hdir : s.directionChanged = true)
    (hfl : s.leftResetComplete = false) (hfr : s.rightResetComplete = false) :
    (resyncRun dec RESYNC_FUEL s).1.directionChanged = false ∧
    (resyncRun dec RESYNC_FUEL s).1.leftResetComplete = true ∧
    (resyncRun dec RESYNC_FUEL s).1.rightResetComplete = true ∧
    |(resyncRun dec RESYNC_FUEL s).1.prevLeft - NEUTRAL_SPEED| ≤ dec ∧
    |(resyncRun dec RESYNC_FUEL s).1.prevRight - NEUTRAL_SPEED| ≤ dec := by
  obtain ⟨q1, q2, q3, ⟨q4a, q4b⟩, ⟨q5a, q5b⟩, _, _, _, _⟩ :=
    resyncRun_complete hd0 hd1 RESYNC_FUEL s hL0 hL1 hR0 hR1
      (by intro hx; rw [hfl] at hx; simp at hx)
      (by intro hx; rw [hfr] at hx; simp at hx)
      hdir
      (by simp only [RESYNC_FUEL]; omega)
  refine ⟨q1, q2, q3, ?_, ?_⟩ <;> (rw [abs_le]; simp only [NEUTRAL_SPEED]; constructor <;> omega)

/-- Witness for `resync_loop_terminates_near_neutral`: a resync entered at
drive speeds 700 and 300 with `decRate = 20`. -/
theorem resync_loop_terminates_near_neutral_witness :
    (resyncRun 20 RESYNC_FUEL ⟨0, 0, true, false, false, 700, 300⟩).1.directionChanged = false ∧
    (resyncRun 20 RESYNC_FUEL ⟨0, 0, true, false, false, 700, 300⟩).1.leftResetComplete = true ∧
    (resyncRun 20 RESYNC_FUEL ⟨0, 0, true, false, false, 700, 300⟩).1.rightResetComplete = true ∧
    |(resyncRun 20 RESYNC_FUEL ⟨0, 0, true, false, false, 700, 300⟩).1.prevLeft
      - NEUTRAL_SPEED| ≤ 20 ∧
    |(resyncRun 20 RESYNC_FUEL ⟨0, 0, true, false, false, 700, 300⟩).1.prevRight
      - NEUTRAL_SPEED| ≤ 20 :=
  resync_loop_terminates_near_neutral 20 ⟨0, 0, true, false, false, 700, 300⟩
    (by norm_num) (by norm_num) (by norm_num) (by norm_num) (by norm_num) (by norm_num)
    rfl rfl rfl

/-- C5: in every run of the control loop from the cold-start state with a
configuration in the `uint8_t` ranges and all commanded values in the
declared domain `[-512, 512]`, every pulse pair written to the motors — by
the `drive` rate limiter and by the resync loop alike — lies within
`[REVERSE_PULSE, FORWARD_PULSE] = [1000, 2000]`. -/
theorem pulses_always_within_pulse_range (c : Cfg)
    (ha0 : 1 ≤ c.accRate) (ha1 : c.accRate ≤ 255)
    (hd0 : 1 ≤ c.decRate) (hd1 : c.decRate ≤ 255)
    (ht1 : 0 ≤ c.fwdLeftTrim) (ht2 : c.fwdLeftTrim ≤ 255)
    (ht3 : 0 ≤ c.revLeftTrim) (ht4 : c.revLeftTrim ≤ 255)
    (ht5 : 0 ≤ c.fwdRightTrim) (ht6 : c.fwdRightTrim ≤ 255)
    (ht7 : 0 ≤ c.revRightTrim) (ht8 : c.revRightTrim ≤ 255)
    (inputs : List (ℤ × ℤ))
    (hin : ∀ p ∈ inputs, -512 ≤ p.1 ∧ p.1 ≤ 512 ∧ -512 ≤ p.2 ∧ p.2 ≤ 512) :
    pulsesWithinBounds (runCar c inputs initSt).2 := by
  obtain ⟨_, h2, _, _⟩ :=
    runCar_spec ha0 ha1 hd0 hd1 ht1 ht2 ht3 ht4 ht5 ht6 ht7 ht8 inputs initSt
      StInv_initSt hin
  intro pr hpr
  have := h2 pr hpr
  simp only [REVERSE_PULSE, FORWARD_PULSE]
  exact this

/-- Witness for `pulses_always_within_pulse_range` on a concrete run. -/
theorem pulses_always_within_pulse_range_witness :
    pulsesWithinBounds
      (runCar ⟨15, 20, 0, 0, 4, 0⟩ [(256, -1), (-256, -1), (512, -1)] initSt).2 :=
  pulses_always_within_pulse_range ⟨15, 20, 0, 0, 4, 0⟩
    (by norm_num) (by norm_num) (by norm_num) (by norm_num)
    (by norm_num) (by norm_num) (by norm_num) (by norm_num)
    (by norm_num) (by norm_num) (by norm_num) (by norm_num)
    [(256, -1), (-256, -1), (512, -1)] (by decide)

/-- C6, counterexample.  The spec claims that when a motor's speed is
decreasing, the per-cycle change in the drive path is bounded by the
configured deceleration rate.  With `accRatePercent = 100` and
`decRatePercent = 0` (`accRate = 30`, `decRate = 1` — both reachable
configurations), a decrease step in `drive` moves the left motor from 500
to 470, a change of 30, far above `decRate = 1`: the drive path uses
`accRate` for both directions, and `decRate` only in the resync loop. -/
theorem decrease_not_bounded_by_decRate :
    accRateOf 100 = 30 ∧ decRateOf 0 = 1 ∧
    driveLimitLeft 30 500 (mapDriveSpeed (-512)) = 470 ∧
    ¬ (500 - driveLimitLeft 30 500 (mapDriveSpeed (-512)) ≤ decRateOf 0) := by decide

/-- C6, amended: in the drive (RUNNING) path the per-cycle change of the
left motor's speed is bounded by the configured acceleration rate in both
directions — increasing and decreasing alike; the deceleration rate plays
no role in `drive` and is used only by the resync loop. -/
theorem drive_change_bounded_by_accRate (acc prev x : ℤ)
    (ha0 : 1 ≤ acc) (ha1 : acc ≤ 255) (hp0 : 0 ≤ prev) (hp1 : prev ≤ 1000)
    (hx0 : -512 ≤ x) (hx1 : x ≤ 512) :
    |driveLimitLeft acc prev (mapDriveSpeed x) - prev| ≤ acc := by
  have ht := mapDriveSpeed_bounds hx0 hx1
  have h := driveLimitLeft_rate (by omega) ha1 hp0 hp1 ht.1 ht.2
  rw [abs_le]
  constructor <;> omega

/-- Witness for `drive_change_bounded_by_accRate`: a deceleration step from
750 toward full reverse with `accRate = 15` changes the speed by 15. -/
theorem drive_change_bounded_by_accRate_witness :
    |driveLimitLeft 15 750 (mapDriveSpeed (-512)) - 750| ≤ 15 :=
  drive_change_bounded_by_accRate 15 750 (-512)
    (by norm_num) (by norm_num) (by norm_num) (by norm_num) (by norm_num) (by norm_num)

/-- C7: for any non-zero `moveValue` the motor-speed computation of
`setLeftRightMotorSpeeds` is entirely independent of `rotateValue` — the
rotation axis is ignored for the cycle.  (When `moveValue = 0` the result
is by construction a function of `rotateValue` alone, since `moveValue` is
fixed.) -/
theorem move_nonzero_ignores_rotate (c : Cfg) (mv rv rv' : ℤ) (h : mv ≠ 0) :
    motorCmds c mv rv = motorCmds c mv rv' := by
  rcases lt_or_gt_of_ne h with hlt | hgt
  · simp [motorCmds, hlt, show ¬ (0:ℤ) < mv by omega]
  · simp [motorCmds, hgt]

/-- Witness for `move_nonzero_ignores_rotate` at `moveValue = 256` and two
different rotation values. -/
theorem move_nonzero_ignores_rotate_witness :
    motorCmds ⟨15, 20, 0, 0, 4, 0⟩ 256 (-1) = motorCmds ⟨15, 20, 0, 0, 4, 0⟩ 256 77 :=
  move_nonzero_ignores_rotate ⟨15, 20, 0, 0, 4, 0⟩ 256 (-1) 77 (by norm_num)

/-- C8, counterexample.  The spec claims the motor speeds stay within the
configured speed limit for every configured trim, with clamping rather
than overflow.  With `speedLimitPercent = 0` (`speedLimit = 72`) and
`FWD_LEFT_TRIM = 255` (reachable: the calibration wizard decrements the
`uint8_t` trim from 0, wrapping to 255), pushing the joystick forward
yields `moveValue = 72` and a left motor speed of `72 - 255 = -183`
(stored by 16-bit wraparound, no clamping), whose magnitude 183 exceeds
the speed limit 72. -/
theorem trim_can_exceed_speed_limit :
    speedLimitOf 0 = 72 ∧
    getJoystickInputs 72 630 340 400 600 500 500 1000 500 = (72, 0) ∧
    toInt16 (motorCmds ⟨15, 20, 255, 0, 0, 0⟩ 72 0).1 = -183 ∧
    ¬ (|toInt16 (motorCmds ⟨15, 20, 255, 0, 0, 0⟩ 72 0).1| ≤ 72) := by decide

/-- C8, amended: for every speed-limit percentage in `[0, 100]`, every
joystick-derived `(moveValue, rotateValue)` pair produced by the
classifier, and every per-motor per-direction trim of at most
`MIN_SPEED_LIMIT` (72, the smallest configurable speed limit — the shipped
defaults `0, 0, 4, 0` qualify), both motor speeds computed by
`setLeftRightMotorSpeeds` have magnitude at most the configured speed
limit. -/
theorem speeds_within_limit_for_small_trims
    (c : Cfg) (pct fT rT lT rtT xp xn yp yn : ℤ)
    (hp0 : 0 ≤ pct) (hp1 : pct ≤ 100)
    (ht1 : 0 ≤ c.fwdLeftTrim) (ht2 : c.fwdLeftTrim ≤ MIN_SPEED_LIMIT)
    (ht3 : 0 ≤ c.revLeftTrim) (ht4 : c.revLeftTrim ≤ MIN_SPEED_LIMIT)
    (ht5 : 0 ≤ c.fwdRightTrim) (ht6 : c.fwdRightTrim ≤ MIN_SPEED_LIMIT)
    (ht7 : 0 ≤ c.revRightTrim) (ht8 : c.revRightTrim ≤ MIN_SPEED_LIMIT) :
    |toInt16 (motorCmds c
        (getJoystickInputs (speedLimitOf pct) fT rT lT rtT xp xn yp yn).1
        (getJoystickInputs (speedLimitOf pct) fT rT lT rtT xp xn yp yn).2).1|
      ≤ speedLimitOf pct ∧
    |toInt16 (motorCmds c
        (getJoystickInputs (speedLimitOf pct) fT rT lT rtT xp xn yp yn).1
        (getJoystickInputs (speedLimitOf pct) fT rT lT rtT xp xn yp yn).2).2|
      ≤ speedLimitOf pct := by
  obtain ⟨hsl0, hsl1⟩ := speedLimitOf_bounds hp0 hp1
  obtain ⟨⟨hm0, hm1⟩, hr0, hr1⟩ :=
    @getJoystickInputs_bounds (speedLimitOf pct) fT rT lT rtT xp xn yp yn hsl0 hsl1
  simp only [MIN_SPEED_LIMIT] at ht2 ht4 ht6 ht8
  exact motorCmds_mag hsl0 hsl1 ht1 ht2 ht3 ht4 ht5 ht6 ht7 ht8 hm0 hm1 hr0 hr1

/-- Witness for `speeds_within_limit_for_small_trims` at the default
configuration and a forward joystick push. -/
theorem speeds_within_limit_for_small_trims_witness :
    |toInt16 (motorCmds ⟨15, 20, 0, 0, 4, 0⟩
        (getJoystickInputs (speedLimitOf 42) 630 340 400 600 500 500 1000 500).1
        (getJoystickInputs (speedLimitOf 42) 630 340 400 600 500 500 1000 500).2).1|
      ≤ speedLimitOf 42 ∧
    |toInt16 (motorCmds ⟨15, 20, 0, 0, 4, 0⟩
        (getJoystickInputs (speedLimitOf 42) 630 340 400 600 500 500 1000 500).1
        (getJoystickInputs (speedLimitOf 42) 630 340 400 600 500 500 1000 500).2).2|
      ≤ speedLimitOf 42 :=
  speeds_within_limit_for_small_trims ⟨15, 20, 0, 0, 4, 0⟩ 42 630 340 400 600 500 500 1000 500
    (by norm_num) (by norm_num) (by norm_num) (by decide) (by norm_num) (by decide)
    (by norm_num) (by decide) (by norm_num) (by decide)

/-- C9: every percentage read from EEPROM (a `uint8_t`, hence in
`[0, 255]`, including 255 from unwritten storage) is clamped to at most
100 before any threshold or rate is derived from it; each derived value
equals the one derived from the clamped percentage `clamp100 raw`, and
lies inside its configured MIN/MAX range, so the out-of-range condition
never propagates. -/
theorem eeprom_percent_clamped (raw : ℤ) (h0 : 0 ≤ raw) (h1 : raw ≤ 255) :
    clamp100 raw ≤ 100 ∧
    setupForwardThresh raw = setupForwardThresh (clamp100 raw) ∧
    setupReverseThresh raw = setupReverseThresh (clamp100 raw) ∧
    setupLeftThresh raw = setupLeftThresh (clamp100 raw) ∧
    setupRightThresh raw = setupRightThresh (clamp100 raw) ∧
    setupSpeedLimit raw = setupSpeedLimit (clamp100 raw) ∧
    setupAccRate raw = setupAccRate (clamp100 raw) ∧
    setupDecRate raw = setupDecRate (clamp100 raw) ∧
    MIN_FORWARD_THRESH ≤ setupForwardThresh raw ∧
    setupForwardThresh raw ≤ MAX_FORWARD_THRESH ∧
    MIN_REVERSE_THRESH ≤ setupReverseThresh raw ∧
    setupReverseThresh raw ≤ MAX_REVERSE_THRESH ∧
    MIN_LEFT_THRESH ≤ setupLeftThresh raw ∧ setupLeftThresh raw ≤ MAX_LEFT_THRESH ∧
    MIN_RIGHT_THRESH ≤ setupRightThresh raw ∧ setupRightThresh raw ≤ MAX_RIGHT_THRESH ∧
    MIN_SPEED_LIMIT ≤ setupSpeedLimit raw ∧ setupSpeedLimit raw ≤ MAX_SPEED_LIMIT ∧
    MIN_INCREASE_RAMPING ≤ setupAccRate raw ∧ setupAccRate raw ≤ MAX_INCREASE_RAMPING ∧
    MIN_DECREASE_RAMPING ≤ setupDecRate raw ∧ setupDecRate raw ≤ MAX_DECREASE_RAMPING := by
  have hb := clamp100_bounds h0
  simp only [setupForwardThresh_eq, setupReverseThresh_eq, setupLeftThresh_eq,
    setupRightThresh_eq, setupSpeedLimit_eq h0, setupSpeedLimit_eq hb.1,
    setupAccRate_eq h0, setupAccRate_eq hb.1, setupDecRate_eq h0, setupDecRate_eq hb.1,
    clamp100_idem,
    MIN_FORWARD_THRESH, MAX_FORWARD_THRESH, MIN_REVERSE_THRESH, MAX_REVERSE_THRESH,
    MIN_LEFT_THRESH, MAX_LEFT_THRESH, MIN_RIGHT_THRESH, MAX_RIGHT_THRESH,
    MIN_SPEED_LIMIT, MAX_SPEED_LIMIT, MIN_INCREASE_RAMPING, MAX_INCREASE_RAMPING,
    MIN_DECREASE_RAMPING, MAX_DECREASE_RAMPING, true_and, and_true]
  omega

/-- Witness for `eeprom_percent_clamped` at the unwritten-storage value
255. -/
theorem eeprom_percent_clamped_witness :
    clamp100 255 ≤ 100 ∧
    setupForwardThresh 255 = setupForwardThresh (clamp100 255) ∧
    setupReverseThresh 255 = setupReverseThresh (clamp100 255) ∧
    setupLeftThresh 255 = setupLeftThresh (clamp100 255) ∧
    setupRightThresh 255 = setupRightThresh (clamp100 255) ∧
    setupSpeedLimit 255 = setupSpeedLimit (clamp100 255) ∧
    setupAccRate 255 = setupAccRate (clamp100 255) ∧
    setupDecRate 255 = setupDecRate (clamp100 255) ∧
    MIN_FORWARD_THRESH ≤ setupForwardThresh 255 ∧
    setupForwardThresh 255 ≤ MAX_FORWARD_THRESH ∧
    MIN_REVERSE_THRESH ≤ setupReverseThresh 255 ∧
    setupReverseThresh 255 ≤ MAX_REVERSE_THRESH ∧
    MIN_LEFT_THRESH ≤ setupLeftThresh 255 ∧ setupLeftThresh 255 ≤ MAX_LEFT_THRESH ∧
    MIN_RIGHT_THRESH ≤ setupRightThresh 255 ∧ setupRightThresh 255 ≤ MAX_RIGHT_THRESH ∧
    MIN_SPEED_LIMIT ≤ setupSpeedLimit 255 ∧ setupSpeedLimit 255 ≤ MAX_SPEED_LIMIT ∧
    MIN_INCREASE_RAMPING ≤ setupAccRate 255 ∧ setupAccRate 255 ≤ MAX_INCREASE_RAMPING ∧
    MIN_DECREASE_RAMPING ≤ setupDecRate 255 ∧ setupDecRate 255 ≤ MAX_DECREASE_RAMPING :=
  eeprom_percent_clamped 255 (by norm_num) (by norm_num)

/-- C10: the startup derivation of the forward and right thresholds
(`setup`, `map(pct, 0, 100, MAX, MIN)`) and the touchscreen save-path
derivation (`loop`, `map(pct, 0, 100, MIN, MAX)`) use opposite endpoint
orders, so the same sensitivity percentage yields different thresholds:
at 0 % the startup path gives 1000 while the save path gives 600, for
both thresholds.  (The reverse and left thresholds agree between the two
paths; the comments in the source — higher sensitivity shrinks the
forward deadzone, i.e. lowers `forwardThresh` — match the startup
derivation, so the save path is the slip.) -/
theorem threshold_derivation_paths_disagree :
    setupForwardThresh 0 = 1000 ∧ saveForwardThresh 0 = 600 ∧
    saveForwardThresh 0 ≠ setupForwardThresh 0 ∧
    setupRightThresh 0 = 1000 ∧ saveRightThresh 0 = 600 ∧
    saveRightThresh 0 ≠ setupRightThresh 0 := by decide

end GoBabyGo
